import Mathlib

/-
Verification of the observation aggregation engine of
`ichnaea/service/submit/tasks.py` (MikeNicholls/ichnaea).

The Python module is shallowly embedded below.  Python dict entries with
optional keys become structures with `Option` fields; a `dict[k]` access on a
possibly missing key becomes an `Except`-throwing getter; `dict.get(k, d)`
becomes `Option.getD`.  The database session becomes an explicit `Session`
state record holding the relevant tables; the celery tasks become functions
from a `Session` and their arguments to a `TaskOutcome`.

Collaborators that live in modules outside the provided source
(`ichnaea.models`, `ichnaea.decimaljson`, `ichnaea.service.submit.utils`)
are modelled from the specification; each such definition carries a doc
comment starting with `Modelled from the spec:`.
-/

namespace Ichnaea

/-- The Python exception classes that the embedded code can raise:
`KeyError` (missing dict key), `sqlalchemy.exc.IntegrityError`
(uniqueness violation reported by the store), `ValueError`
(e.g. `range` with a zero step). -/
inductive PyErr where
  | keyError
  | integrityError
  | valueError
deriving DecidableEq, Repr

/-- Decoded timestamps are opaque to every claim under verification; they are
carried around but never inspected.  We represent them by their encoded
string. -/
abbrev Timestamp := String

/-- Modelled from the spec: `ichnaea.decimaljson.decode_datetime` (module not
in src) decodes a timestamp string, with empty/missing input mapped to a
defined epoch value and never an error.  Since no claim inspects the decoded
value, the embedding carries the encoded string itself; `""` stands for the
epoch default. -/
def decode_datetime (s : String) : Timestamp := s

/-- Modelled from the spec: `ichnaea.decimaljson.encode_datetime` (module not
in src), inverse direction of `decode_datetime`. -/
def encode_datetime (t : Timestamp) : String := t

/-- Modelled from the spec: `RADIO_TYPE` from `ichnaea.models` (module not in
src) resolves a radio type name to an enumerated value, with `-1` as the
unknown sentinel (the default used at the call site
`RADIO_TYPE.get(entry['radio'], -1)`).  The exact non-negative codes of the
supported technologies are irrelevant to the claims; what matters is that a
recognized name maps to a value distinct from `-1`. -/
def RADIO_TYPE_get (r : String) : Int :=
  if r = "gsm" then 0
  else if r = "cdma" then 1
  else if r = "umts" then 2
  else if r = "lte" then 3
  else -1

/-- One cell entry of a submitted report, as a dict with optional keys.
`none` means the key is absent from the dict. -/
structure CellEntry where
  radio : Option String
  mcc : Option Int
  mnc : Option Int
  lac : Option Int
  cid : Option Int
  psc : Option Int
  asu : Option Int
  signal : Option Int
  ta : Option Int
deriving DecidableEq, Repr

/-- One wifi entry of a submitted report, as a dict with optional keys. -/
structure WifiEntry where
  key : Option String
  channel : Option Int
  frequency : Option Int
  signal : Option Int
  id : Option Int
deriving DecidableEq, Repr

/-- One row of the `measure` table (class `Measure` of `ichnaea.models`):
a raw observation.  The opaque cell/wifi payloads are stored verbatim for
later reprocessing (spec section 3), so we store them as the decoded entry
lists; `none` is SQL NULL. -/
structure Measure where
  id : Int
  created : Timestamp
  lat : Int
  lon : Int
  time : Timestamp
  accuracy : Int
  altitude : Int
  altitude_accuracy : Int
  radio : Int
  cell : Option (List CellEntry)
  wifi : Option (List WifiEntry)
deriving DecidableEq, Repr

/-- The `measure_data` dict handed to the processing functions.  The keys
`id`, `lat`, `lon` and `radio` are accessed unconditionally by the code under
verification and are always present in both the submit and the reprocess
path, so they are plain fields; the keys read through `.get(...)` are
`Option` fields. -/
structure MeasureData where
  id : Int
  created : Option String
  lat : Int
  lon : Int
  time : Option String
  accuracy : Option Int
  altitude : Option Int
  altitude_accuracy : Option Int
  radio : Int
deriving DecidableEq, Repr

/-- One row of the `cell_measure` table (class `CellMeasure`): a derived cell
observation. -/
structure CellMeasure where
  measure_id : Int
  created : Timestamp
  lat : Int
  lon : Int
  time : Timestamp
  accuracy : Int
  altitude : Int
  altitude_accuracy : Int
  mcc : Int
  mnc : Int
  lac : Int
  cid : Int
  psc : Int
  asu : Int
  signal : Int
  ta : Int
  radio : Int
deriving DecidableEq, Repr

/-- One row of the `wifi_measure` table (class `WifiMeasure`): a derived wifi
observation.  `id` is the nullable client-supplied row id
(`entry.get('id', None)`). -/
structure WifiMeasure where
  measure_id : Int
  created : Timestamp
  lat : Int
  lon : Int
  time : Timestamp
  accuracy : Int
  altitude : Int
  altitude_accuracy : Int
  id : Option Int
  key : String
  channel : Int
  signal : Int
deriving DecidableEq, Repr

/-- One row of the `cell` table (class `Cell`): the aggregate station record
for a cell key, with its observation counters. -/
structure CellRow where
  created : Timestamp
  radio : Int
  mcc : Int
  mnc : Int
  lac : Int
  cid : Int
  new_measures : Int
  total_measures : Int
deriving DecidableEq, Repr

/-- One row of the `wifi` table (class `Wifi`): the aggregate station record
for a wifi key, with its observation counters. -/
structure WifiRow where
  key : String
  created : Timestamp
  new_measures : Int
  total_measures : Int
deriving DecidableEq, Repr

/-- One invocation of the external score collaborator
(`process_score(userid, points, session, key=...)`). -/
structure ScoreCall where
  userid : Int
  points : Int
  key : String
deriving DecidableEq, Repr

/-- The database session state: the tables touched by the module, the list of
recorded score-collaborator calls, and a flag of the storage environment
saying whether the next commit hits a uniqueness conflict. -/
structure Session where
  measures : List Measure
  cells : List CellRow
  wifis : List WifiRow
  wifiBlacklist : List String
  cell_measures : List CellMeasure
  wifi_measures : List WifiMeasure
  scoreCalls : List ScoreCall
  commitConflict : Bool
deriving DecidableEq, Repr

/-- Forget the score-collaborator calls of a session; two sessions with equal
`strip` agree on every table and on the stored raw/derived rows and differ at
most in the recorded score calls. -/
def Session.strip (s : Session) : Session := { s with scoreCalls := [] }

/-- Modelled from the spec: `process_score` from
`ichnaea.service.submit.utils` (module not in src) is the external score
collaborator `recordNewStationCredit(userId, count, kind)`; the embedding
records each invocation. -/
def process_score (userid : Int) (points : Int) (s : Session) (key : String) :
    Session :=
  { s with scoreCalls := s.scoreCalls ++ [{ userid := userid, points := points, key := key }] }

/-- A required dict key access: `d[k]`, raising `KeyError` when absent. -/
def requireKey {α : Type} : Option α → Except PyErr α
  | some v => .ok v
  | none => .error .keyError

instance {ε α : Type} [DecidableEq ε] [DecidableEq α] :
    DecidableEq (Except ε α) := fun x y =>
  match x, y with
  | .ok a, .ok b =>
    if h : a = b then .isTrue (by rw [h])
    else .isFalse (fun hc => h (Except.ok.inj hc))
  | .ok _, .error _ => .isFalse (fun hc => Except.noConfusion hc)
  | .error _, .ok _ => .isFalse (fun hc => Except.noConfusion hc)
  | .error a, .error b =>
    if h : a = b then .isTrue (by rw [h])
    else .isFalse (fun hc => h (Except.error.inj hc))

/-- `create_cell_measure(measure_data, entry)` (tasks.py lines 28-46).
`entry['mcc']` and `entry['mnc']` are required accesses; all other entry
fields are read with `.get(..., 0)`.  The `radio` column is not set by the
constructor (SQLAlchemy leaves it at its column default, embedded as `0`)
and is assigned immediately afterwards by `process_cell_measure`. -/
def create_cell_measure (md : MeasureData) (e : CellEntry) :
    Except PyErr CellMeasure :=
  match requireKey e.mcc, requireKey e.mnc with
  | .error err, _ => .error err
  | .ok _, .error err => .error err
  | .ok mcc, .ok mnc =>
    .ok { measure_id := md.id, created := decode_datetime (md.created.getD ""),
          lat := md.lat, lon := md.lon,
          time := decode_datetime (md.time.getD ""),
          accuracy := md.accuracy.getD 0, altitude := md.altitude.getD 0,
          altitude_accuracy := md.altitude_accuracy.getD 0,
          mcc := mcc, mnc := mnc, lac := e.lac.getD 0, cid := e.cid.getD 0,
          psc := e.psc.getD 0, asu := e.asu.getD 0,
          signal := e.signal.getD 0, ta := e.ta.getD 0, radio := 0 }

/-- The station-key equality used by the `Cell` query of
`update_cell_measure_count` (lines 55-61): all five key columns match. -/
def cellKeyMatch (c : CellRow) (m : CellMeasure) : Prop :=
  c.radio = m.radio ∧ c.mcc = m.mcc ∧ c.mnc = m.mnc ∧ c.lac = m.lac ∧ c.cid = m.cid

instance (c : CellRow) (m : CellMeasure) : Decidable (cellKeyMatch c m) := by
  unfold cellKeyMatch; infer_instance

/-- Counter bump performed by the `on_duplicate` clause
`new_measures = new_measures + 1, total_measures = total_measures + 1`. -/
def cellBump (c : CellRow) : CellRow :=
  { c with new_measures := c.new_measures + 1, total_measures := c.total_measures + 1 }

/-- Modelled from the spec: the store's conditional insert-or-increment
primitive `upsertAndIncrement` (spec sections 4.4 and 6), i.e. the MySQL
`INSERT ... ON DUPLICATE KEY UPDATE` statement built at lines 67-73 with the
`cell` table's unique station key (the schema lives in `ichnaea.models`,
not in src).  If a row with the measure's station key exists, both counters
are incremented; otherwise a fresh row with counters `(1, 1)` is inserted. -/
def insertCellOnDuplicate (s : Session) (m : CellMeasure) : Session :=
  if s.cells.any (fun c => decide (cellKeyMatch c m)) then
    { s with cells := s.cells.map (fun c => if cellKeyMatch c m then cellBump c else c) }
  else
    { s with cells := s.cells ++
        [{ created := m.created, radio := m.radio, mcc := m.mcc, mnc := m.mnc,
           lac := m.lac, cid := m.cid, new_measures := 1, total_measures := 1 }] }

/-- First half of `update_cell_measure_count` (lines 54-65): the separate
existence query `query.first()` preceding the upsert; returns the novelty
flag `new_cell > 0`, i.e. whether the query found no row.  This is one store
round-trip of its own. -/
def cellCountCheck (m : CellMeasure) (s : Session) : Bool :=
  (s.cells.find? (fun c => decide (cellKeyMatch c m))).isNone

/-- Second half of `update_cell_measure_count` (lines 67-77): execute the
insert-or-increment statement, then credit the score collaborator when a
user id is present and the previously computed novelty flag is set. -/
def cellCountUpsert (m : CellMeasure) (sawNew : Bool) (u : Option Int)
    (s : Session) : Session :=
  let new_cell : Int := if sawNew then 1 else 0
  let s2 := insertCellOnDuplicate s m
  match u with
  | none => s2
  | some uid => if new_cell > 0 then process_score uid new_cell s2 "new_cell" else s2

/-- `update_cell_measure_count(measure, session, userid)` (lines 49-77):
skip incomplete records, then run the existence check followed by the
insert-or-increment and the conditional score credit. -/
def update_cell_measure_count (m : CellMeasure) (s : Session) (u : Option Int) :
    Session :=
  if m.radio = -1 ∨ m.lac = 0 ∨ m.cid = 0 then s
  else cellCountUpsert m (cellCountCheck m s) u s

/-- Per-entry radio resolution of `process_cell_measure` (lines 132-137):
use the entry's own radio name when present and truthy (non-empty), falling
back to the report-level `measure_data['radio']`. -/
def resolveCellRadio (md : MeasureData) (e : CellEntry) : Int :=
  match e.radio with
  | some r => if r = "" then md.radio else RADIO_TYPE_get r
  | none => md.radio

/-- The entry loop of `process_cell_measure` (lines 130-139), threading the
session and the accumulated `cell_measures` list. -/
def processCellLoop (md : MeasureData) (u : Option Int) :
    List CellEntry → Session → List CellMeasure →
    Except PyErr (Session × List CellMeasure)
  | [], s, acc => .ok (s, acc)
  | e :: rest, s, acc =>
    match create_cell_measure md e with
    | .error err => .error err
    | .ok cell0 =>
      let cell := { cell0 with radio := resolveCellRadio md e }
      processCellLoop md u rest (update_cell_measure_count cell s u) (acc ++ [cell])

/-- `process_cell_measure(session, measure_data, entries, userid)`
(lines 127-141): run the entry loop, then `session.add_all` the accumulated
derived rows and return them. -/
def process_cell_measure (s : Session) (md : MeasureData)
    (entries : List CellEntry) (u : Option Int) :
    Except PyErr (Session × List CellMeasure) :=
  match processCellLoop md u entries s [] with
  | .error err => .error err
  | .ok r =>
    .ok ({ r.1 with cell_measures := r.1.cell_measures ++ r.2 }, r.2)

/-- `convert_frequency(entry)` (lines 160-169).  `entry.pop('frequency', 0)`
removes the frequency with default `0`; when the popped frequency is truthy
the code evaluates `entry['channel']` — a required access that raises
`KeyError` when the channel key is absent — and derives the channel only
when the given channel is falsy and the frequency lies strictly inside one
of the two bands. -/
def convert_frequency (e : WifiEntry) : Except PyErr WifiEntry :=
  let freq := e.frequency.getD 0
  let e2 := { e with frequency := none }
  if freq = 0 then .ok e2
  else
    match e.channel with
    | none => .error .keyError
    | some ch =>
      if ch = 0 then
        if 2411 < freq ∧ freq < 2473 then
          .ok { e2 with channel := some ((freq - 2407).fdiv 5) }
        else if 5169 < freq ∧ freq < 5826 then
          .ok { e2 with channel := some ((freq - 5000).fdiv 5) }
        else .ok e2
      else .ok e2

/-- `entry['key']`: the required wifi station-key access. -/
def getWifiKey (e : WifiEntry) : Except PyErr String :=
  requireKey e.key

/-- `create_wifi_measure(measure_data, created, entry)` (lines 190-204).
`entry['key']` is a required access; the remaining entry fields are read
with `.get`. -/
def create_wifi_measure (md : MeasureData) (created : Timestamp)
    (e : WifiEntry) : Except PyErr WifiMeasure :=
  match getWifiKey e with
  | .error err => .error err
  | .ok k =>
    .ok { measure_id := md.id, created := created, lat := md.lat,
          lon := md.lon, time := decode_datetime (md.time.getD ""),
          accuracy := md.accuracy.getD 0, altitude := md.altitude.getD 0,
          altitude_accuracy := md.altitude_accuracy.getD 0,
          id := e.id, key := k, channel := e.channel.getD 0,
          signal := e.signal.getD 0 }

/-- Counter bump of the wifi `on_duplicate` clause. -/
def wifiBump (w : WifiRow) : WifiRow :=
  { w with new_measures := w.new_measures + 1, total_measures := w.total_measures + 1 }

/-- Modelled from the spec: the wifi variant of the store's conditional
insert-or-increment primitive (the statement built at lines 178-183, with
the `wifi` table's unique `key` column from `ichnaea.models`, not in src). -/
def insertWifiOnDuplicate (s : Session) (k : String) (created : Timestamp) :
    Session :=
  if s.wifis.any (fun w => decide (w.key = k)) then
    { s with wifis := s.wifis.map (fun w => if w.key = k then wifiBump w else w) }
  else
    { s with wifis := s.wifis ++
        [{ key := k, created := created, new_measures := 1, total_measures := 1 }] }

/-- `update_wifi_measure_count(wifi_key, wifis, created, session, userid)`
(lines 172-187).  `wifis` is the mutable dict of already known wifi keys
pre-fetched by `process_wifi_measure`; the novelty flag comes from a lookup
in that dict, the dict is extended, the insert-or-increment statement is
executed, and the score collaborator is credited when a user id is present
and the key was new.  Returns the updated session and dict. -/
def update_wifi_measure_count (wifi_key : String) (wifis : List String)
    (created : Timestamp) (s : Session) (u : Option Int) :
    Session × List String :=
  let pair : Int × List String :=
    if wifi_key ∈ wifis then (0, wifis) else (1, wifis ++ [wifi_key])
  let new_wifi := pair.1
  let wifis2 := pair.2
  let s2 := insertWifiOnDuplicate s wifi_key created
  let s3 :=
    match u with
    | none => s2
    | some uid => if new_wifi > 0 then process_score uid new_wifi s2 "new_wifi" else s2
  (s3, wifis2)

/-- The key comprehension `[e['key'] for e in entries]` (line 256): collects
every entry's key, raising `KeyError` at the first entry without one.  The
surrounding `set(...)` only matters for membership tests, which a list
supports equally, so the embedding keeps the list. -/
def wifiKeysOf : List WifiEntry → Except PyErr (List String)
  | [] => .ok []
  | e :: rest =>
    match getWifiKey e with
    | .error err => .error err
    | .ok k =>
      match wifiKeysOf rest with
      | .error err => .error err
      | .ok ks => .ok (k :: ks)

/-- The entry loop of `process_wifi_measure` (lines 266-275), threading the
pre-fetched known-wifi dict, the session and the accumulated
`wifi_measures` list. -/
def processWifiLoop (md : MeasureData) (u : Option Int) (created : Timestamp)
    (blacked : List String) :
    List WifiEntry → List String → Session → List WifiMeasure →
    Except PyErr (Session × List String × List WifiMeasure)
  | [], wifis, s, acc => .ok (s, wifis, acc)
  | e :: rest, wifis, s, acc =>
    match getWifiKey e with
    | .error err => .error err
    | .ok wifi_key =>
      match convert_frequency e with
      | .error err => .error err
      | .ok e2 =>
        match create_wifi_measure md created e2 with
        | .error err => .error err
        | .ok wm =>
          if wifi_key ∈ blacked then
            processWifiLoop md u created blacked rest wifis s (acc ++ [wm])
          else
            let p := update_wifi_measure_count wifi_key wifis created s u
            processWifiLoop md u created blacked rest p.2 p.1 (acc ++ [wm])

/-- `process_wifi_measure(session, measure_data, entries, userid)`
(lines 254-277): collect the entry keys, query the blacklisted subset and
the already-known subset, run the entry loop, then `session.add_all` the
accumulated derived rows and return them. -/
def process_wifi_measure (s : Session) (md : MeasureData)
    (entries : List WifiEntry) (u : Option Int) :
    Except PyErr (Session × List WifiMeasure) :=
  match wifiKeysOf entries with
  | .error err => .error err
  | .ok wifi_keys =>
    let blacked := s.wifiBlacklist.filter (fun b => decide (b ∈ wifi_keys))
    let wifis := (s.wifis.filter (fun w => decide (w.key ∈ wifi_keys))).map (fun w => w.key)
    let created := decode_datetime (md.created.getD "")
    match processWifiLoop md u created blacked entries wifis s [] with
    | .error err => .error err
    | .ok r => .ok ({ r.1 with wifi_measures := r.1.wifi_measures ++ r.2.2 }, r.2.2)

/-- Modelled from the spec: the transactional `session.commit()` at the
store boundary (spec section 6).  A uniqueness violation detected by the
store at commit time (conflict-class failure, spec section 7) surfaces as an
`IntegrityError`; whether a given commit conflicts is environment state,
carried by the session's `commitConflict` flag. -/
def session_commit (s : Session) : Except PyErr Session :=
  if s.commitConflict then .error .integrityError else .ok s

/-- Outcome of one celery task invocation: a normal return value together
with the logged error messages, or a requeue through `self.retry`. -/
inductive TaskOutcome where
  | done (n : Nat) (logged : List String)
  | retried (e : PyErr)
deriving DecidableEq, Repr

/-- The shared `try/except` of the four tasks: an `IntegrityError` is logged
(`logger.exception('error')`) and turned into a zero-effect return of `0`;
any other exception is re-raised through `self.retry(exc=exc)`. -/
def taskWrap (body : Except PyErr Nat) : TaskOutcome :=
  match body with
  | .ok n => .done n []
  | .error .integrityError => .done 0 ["error"]
  | .error e => .retried e

/-- The `try` block of `insert_cell_measure` (lines 146-152): process the
entries, commit, and return the number of derived rows. -/
def insert_cell_measure_body (s : Session) (md : MeasureData)
    (entries : List CellEntry) (u : Option Int) : Except PyErr Nat := do
  let r ← process_cell_measure s md entries u
  let _ ← session_commit r.1
  .ok r.2.length

/-- `insert_cell_measure` task (lines 144-157). -/
def insert_cell_measure (s : Session) (md : MeasureData)
    (entries : List CellEntry) (u : Option Int) : TaskOutcome :=
  taskWrap (insert_cell_measure_body s md entries u)

/-- The `try` block of `insert_wifi_measure` (lines 283-288). -/
def insert_wifi_measure_body (s : Session) (md : MeasureData)
    (entries : List WifiEntry) (u : Option Int) : Except PyErr Nat := do
  let r ← process_wifi_measure s md entries u
  let _ ← session_commit r.1
  .ok r.2.length

/-- `insert_wifi_measure` task (lines 280-293). -/
def insert_wifi_measure (s : Session) (md : MeasureData)
    (entries : List WifiEntry) (u : Option Int) : TaskOutcome :=
  taskWrap (insert_wifi_measure_body s md entries u)

/-- The reconstruction of a `measure_data` dict from a stored raw
observation (lines 107-114 and 234-241): every key is present. -/
def measureDataOf (m : Measure) : MeasureData :=
  { id := m.id
    created := some (encode_datetime m.created)
    lat := m.lat
    lon := m.lon
    time := some (encode_datetime m.time)
    accuracy := some m.accuracy
    altitude := some m.altitude
    altitude_accuracy := some m.altitude_accuracy
    radio := m.radio }

/-- The per-measure loop of `reprocess_cell_measure` (lines 106-117). -/
def reprocessCellLoop (u : Option Int) :
    List Measure → Session → Except PyErr Session
  | [], s => .ok s
  | m :: rest, s =>
    match m.cell with
    | none => reprocessCellLoop u rest s
    | some entries => do
      let r ← process_cell_measure s (measureDataOf m) entries u
      reprocessCellLoop u rest r.1

/-- The `try` block of `reprocess_cell_measure` (lines 101-119): load the
raw observations with the given ids and a non-null cell payload, reprocess
each through `process_cell_measure`, commit once, and return the number of
raw observations processed. -/
def reprocess_cell_measure_body (s : Session) (measure_ids : List Int)
    (u : Option Int) : Except PyErr Nat := do
  let ms := s.measures.filter (fun m => decide (m.id ∈ measure_ids) && m.cell.isSome)
  let s2 ← reprocessCellLoop u ms s
  let _ ← session_commit s2
  .ok ms.length

/-- `reprocess_cell_measure` task (lines 98-124). -/
def reprocess_cell_measure (s : Session) (measure_ids : List Int)
    (u : Option Int) : TaskOutcome :=
  taskWrap (reprocess_cell_measure_body s measure_ids u)

/-- The per-measure loop of `reprocess_wifi_measure` (lines 233-244). -/
def reprocessWifiLoop (u : Option Int) :
    List Measure → Session → Except PyErr Session
  | [], s => .ok s
  | m :: rest, s =>
    match m.wifi with
    | none => reprocessWifiLoop u rest s
    | some entries => do
      let r ← process_wifi_measure s (measureDataOf m) entries u
      reprocessWifiLoop u rest r.1

/-- The `try` block of `reprocess_wifi_measure` (lines 228-246). -/
def reprocess_wifi_measure_body (s : Session) (measure_ids : List Int)
    (u : Option Int) : Except PyErr Nat := do
  let ms := s.measures.filter (fun m => decide (m.id ∈ measure_ids) && m.wifi.isSome)
  let s2 ← reprocessWifiLoop u ms s
  let _ ← session_commit s2
  .ok ms.length

/-- `reprocess_wifi_measure` task (lines 225-251). -/
def reprocess_wifi_measure (s : Session) (measure_ids : List Int)
    (u : Option Int) : TaskOutcome :=
  taskWrap (reprocess_wifi_measure_body s measure_ids u)

/-- The chunking loop `for i in range(0, len(ids), batch)` submitting
`ids[i:i + batch]` per iteration (lines 91-93 and 218-220), written with the
list length as fuel; for `batch ≥ 1` the fuel is never exhausted. -/
def chunksAux (batch : Nat) : Nat → List Int → List (List Int)
  | _, [] => []
  | 0, _ :: _ => []
  | fuel + 1, x :: rest =>
    ((x :: rest).take batch) :: chunksAux batch fuel ((x :: rest).drop batch)

/-- Partition `ids` into the contiguous chunks submitted by the cleanup
schedulers. -/
def chunks (batch : Nat) (ids : List Int) : List (List Int) :=
  chunksAux batch ids.length ids

/-- The id selection of `schedule_cell_cleanup`'s SQL statement
(lines 83-90): measures with a non-null `cell` payload, no `cell_measure`
row referencing them, and `measure.id > lower and measure.id < upper`. -/
def cellCleanupIds (s : Session) (lower upper : Int) : List Int :=
  (s.measures.filter (fun m =>
      !(s.cell_measures.any (fun cm => decide (cm.measure_id = m.id))) &&
      m.cell.isSome && decide (lower < m.id) && decide (m.id < upper))).map
    (fun m => m.id)

/-- `schedule_cell_cleanup(lower, upper, batch)` (lines 80-95): select the
unprocessed raw-observation ids, submit them in chunks of at most `batch`
(the `range` call raises `ValueError` for a zero step), and return the
total number of ids found.  The result pairs the submitted chunks with the
returned count. -/
def schedule_cell_cleanup (s : Session) (lower upper : Int) (batch : Nat) :
    Except PyErr (List (List Int) × Nat) :=
  if batch = 0 then .error .valueError
  else
    let ids := cellCleanupIds s lower upper
    .ok (chunks batch ids, ids.length)

/-- The id selection of `schedule_wifi_cleanup`'s SQL statement
(lines 210-217). -/
def wifiCleanupIds (s : Session) (lower upper : Int) : List Int :=
  (s.measures.filter (fun m =>
      !(s.wifi_measures.any (fun wm => decide (wm.measure_id = m.id))) &&
      m.wifi.isSome && decide (lower < m.id) && decide (m.id < upper))).map
    (fun m => m.id)

/-- `schedule_wifi_cleanup(lower, upper, batch)` (lines 207-222). -/
def schedule_wifi_cleanup (s : Session) (lower upper : Int) (batch : Nat) :
    Except PyErr (List (List Int) × Nat) :=
  if batch = 0 then .error .valueError
  else
    let ids := wifiCleanupIds s lower upper
    .ok (chunks batch ids, ids.length)

/-- Whether an `Except` computation completed without raising. -/
def exceptOk {ε α : Type} : Except ε α → Bool
  | .ok _ => true
  | .error _ => false

/-- Per-caller execution phase in the concurrency model of
`update_cell_measure_count`: each concurrent task performs the existence
check (`cellCountCheck`, one store round-trip of its own) and then the
insert-or-increment with the conditional score credit (`cellCountUpsert`).
Between the two round-trips other workers may act on the shared store: per
spec section 5 the workers share no in-process state and contention is
resolved entirely at the storage layer. -/
inductive UpsertPhase where
  | ready
  | checked (sawNew : Bool)
  | finished
deriving DecidableEq, Repr

/-- One store round-trip of one caller running
`update_cell_measure_count m _ u` against the shared store state. -/
def upsertStep (m : CellMeasure) (u : Option Int) :
    Session → UpsertPhase → Session × UpsertPhase
  | s, .ready => (s, .checked (cellCountCheck m s))
  | s, .checked sawNew => (cellCountUpsert m sawNew u s, .finished)
  | s, .finished => (s, .finished)

/-- Run an interleaving of several concurrent callers of
`update_cell_measure_count m _ u` over the shared store: the schedule lists,
step by step, the index of the caller performing its next store
round-trip. -/
def runUpsertRace (m : CellMeasure) (u : Option Int) :
    List Nat → Session → List UpsertPhase → Session × List UpsertPhase
  | [], s, ps => (s, ps)
  | i :: rest, s, ps =>
    match ps[i]? with
    | none => runUpsertRace m u rest s ps
    | some p =>
      let q := upsertStep m u s p
      runUpsertRace m u rest q.1 (ps.set i q.2)

/-! Concrete fixtures used by the claim theorems, their witnesses and
counterexamples. -/

/-- A session over an empty store. -/
def emptySession : Session := ⟨[], [], [], [], [], [], [], false⟩

/-- A session whose next commit hits a uniqueness conflict. -/
def conflictSession : Session := { emptySession with commitConflict := true }

/-- A report-level `measure_data` dict with only the required keys. -/
def md0 : MeasureData :=
  { id := 1, created := none, lat := 12, lon := 34, time := none,
    accuracy := none, altitude := none, altitude_accuracy := none, radio := 0 }

/-- The cell entry `{mcc:1, mnc:1, lac:5, cid:9, radio:"gsm"}` of the spec's
worked example. -/
def entryC8 : CellEntry :=
  { radio := some "gsm", mcc := some 1, mnc := some 1, lac := some 5,
    cid := some 9, psc := none, asu := none, signal := none, ta := none }

/-- The derived `cell_measure` row produced for `entryC8` under `md0`. -/
def cellMeasureC8 : CellMeasure :=
  { measure_id := 1, created := "", lat := 12, lon := 34, time := "",
    accuracy := 0, altitude := 0, altitude_accuracy := 0, mcc := 1, mnc := 1,
    lac := 5, cid := 9, psc := 0, asu := 0, signal := 0, ta := 0, radio := 0 }

/-- The aggregate `cell` row created for `entryC8`. -/
def rowC8 : CellRow :=
  { created := "", radio := 0, mcc := 1, mnc := 1, lac := 5, cid := 9,
    new_measures := 1, total_measures := 1 }

/-- The single score-collaborator call expected for `entryC8` and user 1. -/
def scoreCallC8 : ScoreCall := { userid := 1, points := 1, key := "new_cell" }

/-- A complete cell measure (radio resolved, non-zero lac/cid) used by the
race interleaving of C1. -/
def raceMeasure : CellMeasure :=
  { cellMeasureC8 with lac := 1, cid := 1 }

/-- The racy interleaving: two concurrent callers for the same
never-before-seen station key, both performing their existence check before
either performs its insert-or-increment. -/
def raceRun : Session × List UpsertPhase :=
  runUpsertRace raceMeasure (some 7) [0, 1, 0, 1] emptySession
    [.ready, .ready]

/-- A wifi entry whose channel key is absent while an in-band frequency is
present. -/
def c2entry : WifiEntry :=
  { key := some "ab", channel := none, frequency := some 2412, signal := none,
    id := none }

/-- A wifi entry with channel 0 and the spec's example frequency 2437. -/
def c2witnessEntry : WifiEntry :=
  { key := some "ab", channel := some 0, frequency := some 2437,
    signal := none, id := none }

/-- A wifi entry whose channel key is absent while a nonzero out-of-band
frequency is present. -/
def c3entry : WifiEntry :=
  { key := some "ab", channel := none, frequency := some 100, signal := none,
    id := none }

/-- A wifi entry with a present nonzero channel and an out-of-band
frequency. -/
def c3witnessEntry : WifiEntry :=
  { key := some "ab", channel := some 3, frequency := some 9999,
    signal := none, id := none }

/-- A well-formed wifi entry. -/
def wifiGood : WifiEntry :=
  { key := some "ab", channel := some 0, frequency := none, signal := none,
    id := none }

/-- A wifi entry missing its required station key. -/
def wifiNoKey : WifiEntry :=
  { key := none, channel := some 0, frequency := none, signal := none,
    id := none }

/-- A wifi entry for the blacklisted key `"aa"`. -/
def wifiAa : WifiEntry :=
  { key := some "aa", channel := some 0, frequency := none, signal := none,
    id := none }

/-- A wifi entry for the non-blacklisted key `"bb"`. -/
def wifiBb : WifiEntry :=
  { key := some "bb", channel := some 0, frequency := none, signal := none,
    id := none }

/-- A session whose blacklist contains the wifi key `"aa"`. -/
def blackSession : Session := { emptySession with wifiBlacklist := ["aa"] }

/-- A cell entry missing its required `mnc` key. -/
def cellNoMnc : CellEntry :=
  { radio := some "gsm", mcc := some 1, mnc := none, lac := some 5,
    cid := some 9, psc := none, asu := none, signal := none, ta := none }

/-- A cell entry with `lac` 0 (incomplete station key). -/
def entryLacZero : CellEntry :=
  { radio := some "gsm", mcc := some 1, mnc := some 1, lac := some 0,
    cid := some 9, psc := none, asu := none, signal := none, ta := none }

/-- A raw observation with id 5 carrying a cell payload. -/
def measure5 : Measure :=
  { id := 5, created := "", lat := 0, lon := 0, time := "", accuracy := 0,
    altitude := 0, altitude_accuracy := 0, radio := 0, cell := some [],
    wifi := none }

/-- A session holding only `measure5`, with no derived rows. -/
def session5 : Session := { emptySession with measures := [measure5] }

/-- The session resulting from the C8 example. -/
def sessionC8 : Session :=
  { emptySession with
    cells := [rowC8], cell_measures := [cellMeasureC8],
    scoreCalls := [scoreCallC8] }

/-- The full behavior of the two backfill schedulers for a positive batch
size: each returns the chunked id list together with the count of selected
ids; the chunks concatenate back to exactly the selected list (every
selected id lands in exactly one chunk, contiguously, in order); every chunk
holds at most `batch` ids; and an id is selected iff a stored raw
observation carries it, has the respective non-null payload, lies strictly
between `lower` and `upper`, and has no derived row referencing it. -/
def cleanupSpec (s : Session) (lower upper : Int) (batch : Nat) : Prop :=
  (schedule_cell_cleanup s lower upper batch =
    .ok (chunks batch (cellCleanupIds s lower upper),
      (cellCleanupIds s lower upper).length)) ∧
  (chunks batch (cellCleanupIds s lower upper)).flatten =
    cellCleanupIds s lower upper ∧
  (∀ c ∈ chunks batch (cellCleanupIds s lower upper), c.length ≤ batch) ∧
  (∀ i, i ∈ cellCleanupIds s lower upper ↔
    ∃ m ∈ s.measures, m.id = i ∧ m.cell.isSome = true ∧ lower < i ∧
      i < upper ∧ ∀ cm ∈ s.cell_measures, cm.measure_id ≠ i) ∧
  (schedule_wifi_cleanup s lower upper batch =
    .ok (chunks batch (wifiCleanupIds s lower upper),
      (wifiCleanupIds s lower upper).length)) ∧
  (chunks batch (wifiCleanupIds s lower upper)).flatten =
    wifiCleanupIds s lower upper ∧
  (∀ c ∈ chunks batch (wifiCleanupIds s lower upper), c.length ≤ batch) ∧
  (∀ i, i ∈ wifiCleanupIds s lower upper ↔
    ∃ m ∈ s.measures, m.id = i ∧ m.wifi.isSome = true ∧ lower < i ∧
      i < upper ∧ ∀ wm ∈ s.wifi_measures, wm.measure_id ≠ i)

/-- The behavior claimed in C10, for one session, one report and one batch
of each kind: processing with no user identifier produces exactly the same
outcome — same success or failure, same derived rows, same station-registry
tables, every field of the session — as processing with any user identifier
present, except for the recorded score-collaborator calls (which
`Session.strip` forgets); and the run without a user identifier records no
score call at all. -/
def noUserSpec (s : Session) (md : MeasureData) (ce : List CellEntry)
    (we : List WifiEntry) (u : Int) : Prop :=
  ((process_cell_measure s md ce none).map (fun r => (r.1.strip, r.2)) =
    (process_cell_measure s md ce (some u)).map (fun r => (r.1.strip, r.2))) ∧
  (∀ r, process_cell_measure s md ce none = .ok r →
    r.1.scoreCalls = s.scoreCalls) ∧
  ((process_wifi_measure s md we none).map (fun r => (r.1.strip, r.2)) =
    (process_wifi_measure s md we (some u)).map (fun r => (r.1.strip, r.2))) ∧
  (∀ r, process_wifi_measure s md we none = .ok r →
    r.1.scoreCalls = s.scoreCalls)

/-- The behavior claimed in C6 for a blacklisted wifi key `k`: the batch
persists one derived row per entry — in particular as many rows for `k` as
it has entries for `k` — while the final wifi station table and the
recorded score calls coincide with those of the same batch with the `k`
entries removed (no counter update and no score credit traceable to `k`,
every other key counted exactly as it would be without `k`), and the
station rows for `k` end exactly as they started. -/
def blacklistSpec (s : Session) (md : MeasureData) (we : List WifiEntry)
    (u : Option Int) (k : String) : Prop :=
  ((process_wifi_measure s md we u).map (fun r => r.1.wifis) =
    (process_wifi_measure s md
      (we.filter (fun e => !decide (e.key = some k))) u).map
        (fun r => r.1.wifis)) ∧
  ((process_wifi_measure s md we u).map (fun r => r.1.scoreCalls) =
    (process_wifi_measure s md
      (we.filter (fun e => !decide (e.key = some k))) u).map
        (fun r => r.1.scoreCalls)) ∧
  ((process_wifi_measure s md we u).map (fun r => r.2.length) =
    .ok we.length) ∧
  ((process_wifi_measure s md we u).map
      (fun r => (r.2.filter (fun wm => decide (wm.key = k))).length) =
    .ok ((we.filter (fun e => decide (e.key = some k))).length)) ∧
  ((process_wifi_measure s md we u).map
      (fun r => r.1.wifis.filter (fun w => decide (w.key = k))) =
    .ok (s.wifis.filter (fun w => decide (w.key = k))))

end Ichnaea

namespace Ichnaea

/-! ### General lemmas about the embedded operations -/

lemma update_cell_incomplete (m : CellMeasure) (s : Session) (u : Option Int)
    (h : m.radio = -1 ∨ m.lac = 0 ∨ m.cid = 0) :
    update_cell_measure_count m s u = s := by
  unfold update_cell_measure_count
  exact if_pos h

lemma taskWrap_integrity (b : Except PyErr Nat)
    (h : b = .error .integrityError) : taskWrap b = .done 0 ["error"] := by
  rw [h]; rfl

lemma taskWrap_other (b : Except PyErr Nat) (e : PyErr)
    (he : e ≠ .integrityError) (h : b = .error e) : taskWrap b = .retried e := by
  rw [h]
  cases e with
  | keyError => rfl
  | integrityError => exact absurd rfl he
  | valueError => rfl

lemma taskWrap_value (b : Except PyErr Nat) (n : Nat) (h : b = .ok n) :
    taskWrap b = .done n [] := by
  rw [h]; rfl

/-! ### Claim theorems -/

/-- C1: the claim demands that the novelty determination be derived from the
same atomic operation as the insert/increment, so that no interleaving of
concurrent callers for a never-before-seen key yields two "new" reports.
The code instead derives novelty from a separate preceding existence query
(`cellCountCheck`, lines 54-65) issued before the atomic insert-or-increment
(`cellCountUpsert`, lines 67-77).  The first conjunct shows the two-round-trip
decomposition is exactly `update_cell_measure_count` run sequentially; the
remaining conjuncts run the interleaving in which two concurrent callers for
the same fresh key both check before either upserts: the final counters are
`(2, 2)` (no lost update), but both callers report "new" and the score
collaborator is credited twice, violating the claim's "exactly one new
report". -/
theorem spec_c1 :
    (∀ (s : Session) (u : Option Int),
        update_cell_measure_count raceMeasure s u =
          (upsertStep raceMeasure u
            (upsertStep raceMeasure u s .ready).1
            (upsertStep raceMeasure u s .ready).2).1) ∧
    raceRun.1.cells =
      [{ created := "", radio := 0, mcc := 1, mnc := 1, lac := 1, cid := 1,
         new_measures := 2, total_measures := 2 }] ∧
    raceRun.1.scoreCalls =
      [{ userid := 7, points := 1, key := "new_cell" },
       { userid := 7, points := 1, key := "new_cell" }] := by
  refine ⟨?_, by decide, by decide⟩
  intro s u
  show update_cell_measure_count raceMeasure s u =
    cellCountUpsert raceMeasure (cellCountCheck raceMeasure s) u s
  unfold update_cell_measure_count
  rw [if_neg (by decide :
    ¬(raceMeasure.radio = -1 ∨ raceMeasure.lac = 0 ∨ raceMeasure.cid = 0))]

/-- C2 (amended): for a wifi entry whose channel key is *present* with value
zero, the deriver maps an in-band frequency 2412 ≤ f ≤ 2472 to channel
⌊(f−2407)/5⌋ and 5170 ≤ f ≤ 5825 to ⌊(f−5000)/5⌋, and leaves the channel
unchanged for any frequency outside both bands (in particular f = 2473 and
f = 5169); when the channel key is absent the code instead raises `KeyError`
(see the counterexample). -/
theorem spec_c2 (e : WifiEntry) (f : Int) (hch : e.channel = some 0)
    (hf : e.frequency = some f) :
    (2412 ≤ f → f ≤ 2472 →
      convert_frequency e =
        .ok { e with frequency := none, channel := some ((f - 2407).fdiv 5) }) ∧
    (5170 ≤ f → f ≤ 5825 →
      convert_frequency e =
        .ok { e with frequency := none, channel := some ((f - 5000).fdiv 5) }) ∧
    (¬(2412 ≤ f ∧ f ≤ 2472) → ¬(5170 ≤ f ∧ f ≤ 5825) →
      convert_frequency e = .ok { e with frequency := none }) := by
  unfold convert_frequency
  rw [hf, hch]
  simp only [Option.getD_some]
  refine ⟨?_, ?_, ?_⟩
  · intro h1 h2
    rw [if_neg (by omega : ¬(f = 0))]
    rw [if_pos trivial, if_pos (by omega : 2411 < f ∧ f < 2473)]
  · intro h1 h2
    rw [if_neg (by omega : ¬(f = 0))]
    rw [if_pos trivial, if_neg (by omega : ¬(2411 < f ∧ f < 2473)),
      if_pos (by omega : 5169 < f ∧ f < 5826)]
  · intro h1 h2
    by_cases h0 : f = 0
    · rw [if_pos h0]
    · rw [if_neg h0]
      rw [if_pos trivial, if_neg (by omega : ¬(2411 < f ∧ f < 2473)),
        if_neg (by omega : ¬(5169 < f ∧ f < 5826))]

/-- C2 witness: the spec's own example f = 2437 with channel present and
zero derives channel 6. -/
theorem spec_c2_witness :
    c2witnessEntry.channel = some 0 ∧ c2witnessEntry.frequency = some 2437 ∧
    (2412 : Int) ≤ 2437 ∧ (2437 : Int) ≤ 2472 ∧
    convert_frequency c2witnessEntry =
      .ok { c2witnessEntry with frequency := none, channel := some 6 } := by
  refine ⟨rfl, rfl, by decide, by decide, ?_⟩
  exact (spec_c2 c2witnessEntry 2437 rfl rfl).1 (by decide) (by decide)

/-- C2 counterexample: for the entry with an *absent* channel key ("unset")
and in-band frequency 2412, the claim predicts channel 1 is set; the code
raises `KeyError` instead of producing any entry. -/
theorem spec_c2_counterexample :
    convert_frequency c2entry = .error .keyError ∧
    convert_frequency c2entry ≠
      .ok { c2entry with frequency := none, channel := some 1 } := by
  exact ⟨by decide, by decide⟩

/-- C3 (amended): the deriver never raises provided the channel key is
present or the frequency is absent/zero; on every such entry it succeeds
with the frequency key removed, and when the frequency is absent/zero or
outside both bands the channel is left exactly as given.  When the channel
key is absent and the frequency is nonzero, the code raises `KeyError`
(the claim's "absent is treated the same as zero" fails, see the
counterexample). -/
theorem spec_c3 (e : WifiEntry) :
    ((e.channel.isSome = true ∨ e.frequency.getD 0 = 0) →
      ∃ r, convert_frequency e = .ok r ∧ r.frequency = none) ∧
    ((e.frequency.getD 0 = 0 ∨
        (¬(2412 ≤ e.frequency.getD 0 ∧ e.frequency.getD 0 ≤ 2472) ∧
         ¬(5170 ≤ e.frequency.getD 0 ∧ e.frequency.getD 0 ≤ 5825))) →
      (e.channel.isSome = true ∨ e.frequency.getD 0 = 0) →
      convert_frequency e = .ok { e with frequency := none }) ∧
    (e.channel = none → ¬(e.frequency.getD 0 = 0) →
      convert_frequency e = .error .keyError) := by
  refine ⟨?_, ?_, ?_⟩
  · intro h
    unfold convert_frequency
    by_cases hf : e.frequency.getD 0 = 0
    · rw [if_pos hf]
      exact ⟨_, rfl, rfl⟩
    · rw [if_neg hf]
      rcases h with h | h
      · obtain ⟨ch, hch⟩ := Option.isSome_iff_exists.mp h
        rw [hch]
        dsimp only
        by_cases h0 : ch = 0
        · rw [if_pos h0]
          split
          · exact ⟨_, rfl, rfl⟩
          · split
            · exact ⟨_, rfl, rfl⟩
            · exact ⟨_, rfl, rfl⟩
        · rw [if_neg h0]
          exact ⟨_, rfl, rfl⟩
      · exact absurd h hf
  · intro hband hok
    unfold convert_frequency
    by_cases hf : e.frequency.getD 0 = 0
    · rw [if_pos hf]
    · rw [if_neg hf]
      rcases hband with h | h
      · exact absurd h hf
      · obtain ⟨h1, h2⟩ := h
        rcases hok with hch | hch
        · obtain ⟨ch, hc⟩ := Option.isSome_iff_exists.mp hch
          rw [hc]
          dsimp only
          by_cases h0 : ch = 0
          · rw [if_pos h0, if_neg (by omega : ¬(2411 < e.frequency.getD 0 ∧
              e.frequency.getD 0 < 2473)), if_neg (by omega :
              ¬(5169 < e.frequency.getD 0 ∧ e.frequency.getD 0 < 5826))]
          · rw [if_neg h0]
        · exact absurd hch hf
  · intro hch hf
    unfold convert_frequency
    rw [if_neg hf, hch]

/-- C3 witness: an entry with channel present (value 3) and out-of-band
frequency 9999 passes through without error, channel left as given,
frequency removed. -/
theorem spec_c3_witness :
    (c3witnessEntry.frequency.getD 0 = 0 ∨
      (¬(2412 ≤ c3witnessEntry.frequency.getD 0 ∧
          c3witnessEntry.frequency.getD 0 ≤ 2472) ∧
       ¬(5170 ≤ c3witnessEntry.frequency.getD 0 ∧
          c3witnessEntry.frequency.getD 0 ≤ 5825))) ∧
    (c3witnessEntry.channel.isSome = true ∨
      c3witnessEntry.frequency.getD 0 = 0) ∧
    convert_frequency c3witnessEntry =
      .ok { c3witnessEntry with frequency := none } := by
  refine ⟨by decide, by decide, ?_⟩
  exact (spec_c3 c3witnessEntry).2.1 (by decide) (by decide)

/-- C3 counterexample: an entry whose channel key is absent and whose
frequency is 100 (nonzero, outside both bands): the claim says the deriver
never raises and leaves the channel as given; the code raises `KeyError`. -/
theorem spec_c3_counterexample :
    c3entry.channel = none ∧ convert_frequency c3entry = .error .keyError := by
  exact ⟨rfl, by decide⟩

/-- C7: for each of the four tasks (`insert_cell_measure`,
`insert_wifi_measure`, `reprocess_cell_measure`, `reprocess_wifi_measure`),
an `IntegrityError` raised by the task body is logged and turned into a
normal return of 0 without a retry, any other exception retries the whole
task, and a body that completes with `n` returns `n` with nothing logged. -/
theorem spec_c7 (s : Session) (md : MeasureData) (ce : List CellEntry)
    (we : List WifiEntry) (ids : List Int) (u : Option Int) :
    ((insert_cell_measure_body s md ce u = .error .integrityError →
        insert_cell_measure s md ce u = .done 0 ["error"]) ∧
     (∀ e, e ≠ .integrityError → insert_cell_measure_body s md ce u = .error e →
        insert_cell_measure s md ce u = .retried e) ∧
     (∀ n, insert_cell_measure_body s md ce u = .ok n →
        insert_cell_measure s md ce u = .done n [])) ∧
    ((insert_wifi_measure_body s md we u = .error .integrityError →
        insert_wifi_measure s md we u = .done 0 ["error"]) ∧
     (∀ e, e ≠ .integrityError → insert_wifi_measure_body s md we u = .error e →
        insert_wifi_measure s md we u = .retried e) ∧
     (∀ n, insert_wifi_measure_body s md we u = .ok n →
        insert_wifi_measure s md we u = .done n [])) ∧
    ((reprocess_cell_measure_body s ids u = .error .integrityError →
        reprocess_cell_measure s ids u = .done 0 ["error"]) ∧
     (∀ e, e ≠ .integrityError → reprocess_cell_measure_body s ids u = .error e →
        reprocess_cell_measure s ids u = .retried e) ∧
     (∀ n, reprocess_cell_measure_body s ids u = .ok n →
        reprocess_cell_measure s ids u = .done n [])) ∧
    ((reprocess_wifi_measure_body s ids u = .error .integrityError →
        reprocess_wifi_measure s ids u = .done 0 ["error"]) ∧
     (∀ e, e ≠ .integrityError → reprocess_wifi_measure_body s ids u = .error e →
        reprocess_wifi_measure s ids u = .retried e) ∧
     (∀ n, reprocess_wifi_measure_body s ids u = .ok n →
        reprocess_wifi_measure s ids u = .done n [])) := by
  refine ⟨⟨?_, ?_, ?_⟩, ⟨?_, ?_, ?_⟩, ⟨?_, ?_, ?_⟩, ⟨?_, ?_, ?_⟩⟩
  · exact fun h => taskWrap_integrity _ h
  · exact fun e he h => taskWrap_other _ e he h
  · exact fun n h => taskWrap_value _ n h
  · exact fun h => taskWrap_integrity _ h
  · exact fun e he h => taskWrap_other _ e he h
  · exact fun n h => taskWrap_value _ n h
  · exact fun h => taskWrap_integrity _ h
  · exact fun e he h => taskWrap_other _ e he h
  · exact fun n h => taskWrap_value _ n h
  · exact fun h => taskWrap_integrity _ h
  · exact fun e he h => taskWrap_other _ e he h
  · exact fun n h => taskWrap_value _ n h

/-- C7 witness: a commit-time uniqueness conflict is logged and returns 0
unretried; a `KeyError` from a malformed entry retries the task. -/
theorem spec_c7_witness :
    insert_wifi_measure_body conflictSession md0 [wifiGood] none =
      .error .integrityError ∧
    insert_wifi_measure conflictSession md0 [wifiGood] none =
      .done 0 ["error"] ∧
    insert_wifi_measure_body emptySession md0 [wifiNoKey] none =
      .error .keyError ∧
    insert_wifi_measure emptySession md0 [wifiNoKey] none =
      .retried .keyError := by
  refine ⟨by decide, ?_, by decide, ?_⟩
  · exact (spec_c7 conflictSession md0 [] [wifiGood] [] none).2.1.1 (by decide)
  · exact (spec_c7 emptySession md0 [] [wifiNoKey] [] none).2.1.2.1 .keyError
      (by decide) (by decide)

/-- C8: processing the single cell entry {mcc:1, mnc:1, lac:5, cid:9,
radio:"gsm"} for user 1 against an empty registry yields exactly one derived
`cell_measure` row, one new `cell` station row with both counters equal to
1, and exactly one score-credit call with count 1. -/
theorem spec_c8 :
    process_cell_measure emptySession md0 [entryC8] (some 1) =
      .ok (sessionC8, [cellMeasureC8]) := by
  decide

/-- C4 counterexample: a wifi batch with one valid entry followed by one
entry missing its station key: the claim says the valid sibling is still
fully processed; the code raises `KeyError` for the whole batch, persisting
nothing. -/
theorem spec_c4_counterexample :
    wifiGood.key.isSome = true ∧
    process_wifi_measure emptySession md0 [wifiGood, wifiNoKey] none =
      .error .keyError := by
  exact ⟨rfl, by decide⟩

/-- C5 counterexample: with lower = 5, upper = 10 and a stored raw
observation of id 5 carrying a cell payload and no derived rows, the claim's
half-open range [5, 10) selects id 5, but the scheduler (whose SQL uses
`measure.id > 5`) selects nothing and returns count 0. -/
theorem spec_c5_counterexample :
    schedule_cell_cleanup session5 5 10 100 = .ok ([], 0) ∧
    measure5 ∈ session5.measures ∧ measure5.id = 5 ∧
    measure5.cell.isSome = true ∧ session5.cell_measures = [] ∧
    (5 : Int) ≥ 5 ∧ (5 : Int) < 10 := by
  exact ⟨by decide, by decide, rfl, rfl, rfl, by decide, by decide⟩

end Ichnaea

namespace Ichnaea

lemma create_cell_measure_some (md : MeasureData) (e : CellEntry) (a b : Int)
    (ha : e.mcc = some a) (hb : e.mnc = some b) :
    create_cell_measure md e = .ok
      { measure_id := md.id, created := decode_datetime (md.created.getD ""),
        lat := md.lat, lon := md.lon, time := decode_datetime (md.time.getD ""),
        accuracy := md.accuracy.getD 0, altitude := md.altitude.getD 0,
        altitude_accuracy := md.altitude_accuracy.getD 0, mcc := a, mnc := b,
        lac := e.lac.getD 0, cid := e.cid.getD 0, psc := e.psc.getD 0,
        asu := e.asu.getD 0, signal := e.signal.getD 0, ta := e.ta.getD 0,
        radio := 0 } := by
  unfold create_cell_measure requireKey
  rw [ha, hb]

lemma create_cell_measure_err (md : MeasureData) (e : CellEntry)
    (h : e.mcc = none ∨ e.mnc = none) :
    create_cell_measure md e = .error .keyError := by
  unfold create_cell_measure requireKey
  rcases h with h | h
  · rw [h]
  · cases hm : e.mcc with
    | none => rfl
    | some a => rw [h]

lemma processCellLoop_ok_of_keys (md : MeasureData) (u : Option Int) :
    ∀ (ce : List CellEntry) (s : Session) (acc : List CellMeasure),
      (∀ e ∈ ce, e.mcc.isSome = true ∧ e.mnc.isSome = true) →
      ∃ s2 ms, processCellLoop md u ce s acc = .ok (s2, ms) ∧
        ms.length = acc.length + ce.length := by
  intro ce
  induction ce with
  | nil => exact fun s acc _ => ⟨s, acc, rfl, by simp [processCellLoop]⟩
  | cons e rest ih =>
    intro s acc h
    obtain ⟨ha, hb⟩ := h e (by simp)
    obtain ⟨a, hma⟩ := Option.isSome_iff_exists.mp ha
    obtain ⟨b, hmb⟩ := Option.isSome_iff_exists.mp hb
    simp only [processCellLoop, create_cell_measure_some md e a b hma hmb]
    obtain ⟨s2, ms, hrec, hlen⟩ := ih _ _ (fun x hx => h x (by simp [hx]))
    refine ⟨s2, ms, hrec, ?_⟩
    simp only [List.length_append, List.length_cons, List.length_nil] at hlen ⊢
    omega

lemma processCellLoop_err (md : MeasureData) (u : Option Int) :
    ∀ (ce : List CellEntry) (s : Session) (acc : List CellMeasure),
      (∃ e ∈ ce, e.mcc = none ∨ e.mnc = none) →
      processCellLoop md u ce s acc = .error .keyError := by
  intro ce
  induction ce with
  | nil => intro s acc h; simp at h
  | cons e rest ih =>
    intro s acc h
    by_cases hbad : e.mcc = none ∨ e.mnc = none
    · simp only [processCellLoop, create_cell_measure_err md e hbad]
    · obtain ⟨a, hma⟩ : ∃ a, e.mcc = some a := by
        cases hm : e.mcc with
        | none => exact absurd (Or.inl hm) hbad
        | some a => exact ⟨a, rfl⟩
      obtain ⟨b, hmb⟩ : ∃ b, e.mnc = some b := by
        cases hm : e.mnc with
        | none => exact absurd (Or.inr hm) hbad
        | some b => exact ⟨b, rfl⟩
      simp only [processCellLoop, create_cell_measure_some md e a b hma hmb]
      apply ih
      rcases h with ⟨x, hx, hxbad⟩
      rcases List.mem_cons.mp hx with rfl | hx
      · exact absurd hxbad hbad
      · exact ⟨x, hx, hxbad⟩

lemma getWifiKey_some (e : WifiEntry) (k : String) (h : e.key = some k) :
    getWifiKey e = .ok k := by
  unfold getWifiKey requireKey
  rw [h]

lemma getWifiKey_none (e : WifiEntry) (h : e.key = none) :
    getWifiKey e = .error .keyError := by
  unfold getWifiKey requireKey
  rw [h]

lemma wifiKeysOf_err :
    ∀ (we : List WifiEntry), (∃ e ∈ we, e.key = none) →
      wifiKeysOf we = .error .keyError := by
  intro we
  induction we with
  | nil => intro h; simp at h
  | cons e rest ih =>
    intro h
    by_cases he : e.key = none
    · simp only [wifiKeysOf, getWifiKey_none e he]
    · obtain ⟨k, hk⟩ : ∃ k, e.key = some k := by
        cases hm : e.key with
        | none => exact absurd hm he
        | some k => exact ⟨k, rfl⟩
      have hrest : wifiKeysOf rest = .error .keyError := by
        apply ih
        rcases h with ⟨x, hx, hxk⟩
        rcases List.mem_cons.mp hx with rfl | hx
        · exact absurd hxk he
        · exact ⟨x, hx, hxk⟩
      simp only [wifiKeysOf, getWifiKey_some e k hk, hrest]

lemma chunksAux_flatten (batch : Nat) (hb : 0 < batch) :
    ∀ (fuel : Nat) (ids : List Int), ids.length ≤ fuel →
      (chunksAux batch fuel ids).flatten = ids := by
  intro fuel
  induction fuel with
  | zero =>
    intro ids h
    cases ids with
    | nil => rfl
    | cons x r => simp at h
  | succ n ih =>
    intro ids h
    cases ids with
    | nil => rfl
    | cons x r =>
      simp only [chunksAux, List.flatten_cons]
      rw [ih ((x :: r).drop batch)
        (by simp only [List.length_drop, List.length_cons]
            simp only [List.length_cons] at h
            omega)]
      exact List.take_append_drop batch (x :: r)

lemma chunksAux_mem_length (batch : Nat) :
    ∀ (fuel : Nat) (ids : List Int) (c : List Int),
      c ∈ chunksAux batch fuel ids → c.length ≤ batch := by
  intro fuel
  induction fuel with
  | zero =>
    intro ids c h
    cases ids with
    | nil => simp [chunksAux] at h
    | cons x r => simp [chunksAux] at h
  | succ n ih =>
    intro ids c h
    cases ids with
    | nil => simp [chunksAux] at h
    | cons x r =>
      simp only [chunksAux, List.mem_cons] at h
      rcases h with rfl | h
      · exact List.length_take_le batch (x :: r)
      · exact ih _ c h

lemma mem_cellCleanupIds (s : Session) (lower upper i : Int) :
    i ∈ cellCleanupIds s lower upper ↔
      ∃ m ∈ s.measures, m.id = i ∧ m.cell.isSome = true ∧ lower < i ∧
        i < upper ∧ ∀ cm ∈ s.cell_measures, cm.measure_id ≠ i := by
  unfold cellCleanupIds
  simp only [List.mem_map, List.mem_filter, Bool.and_eq_true,
    Bool.not_eq_true', List.any_eq_false, decide_eq_true_eq,
    decide_eq_false_iff_not]
  constructor
  · rintro ⟨m, ⟨hmem, ⟨⟨hA, hB⟩, hC⟩, hD⟩, hid⟩
    subst hid
    exact ⟨m, hmem, rfl, hB, hC, hD, hA⟩
  · rintro ⟨m, hmem, hid, hB, hC, hD, hA⟩
    subst hid
    exact ⟨m, ⟨hmem, ⟨⟨hA, hB⟩, hC⟩, hD⟩, rfl⟩

lemma mem_wifiCleanupIds (s : Session) (lower upper i : Int) :
    i ∈ wifiCleanupIds s lower upper ↔
      ∃ m ∈ s.measures, m.id = i ∧ m.wifi.isSome = true ∧ lower < i ∧
        i < upper ∧ ∀ wm ∈ s.wifi_measures, wm.measure_id ≠ i := by
  unfold wifiCleanupIds
  simp only [List.mem_map, List.mem_filter, Bool.and_eq_true,
    Bool.not_eq_true', List.any_eq_false, decide_eq_true_eq,
    decide_eq_false_iff_not]
  constructor
  · rintro ⟨m, ⟨hmem, ⟨⟨hA, hB⟩, hC⟩, hD⟩, hid⟩
    subst hid
    exact ⟨m, hmem, rfl, hB, hC, hD, hA⟩
  · rintro ⟨m, hmem, hid, hB, hC, hD, hA⟩
    subst hid
    exact ⟨m, ⟨hmem, ⟨⟨hA, hB⟩, hC⟩, hD⟩, rfl⟩

/-- C5 (amended, per `cleanupSpec`): for every positive batch size the two
backfill schedulers select exactly the raw-observation ids `i` with
`lower < i < upper` — an *open* interval, not the claim's half-open
`[lower, upper)` — having the respective non-null payload and no derived
rows, submit them partitioned into contiguous chunks of at most `batch` ids
(every selected id in exactly one chunk), and return the total count of ids
found; a zero batch size raises `ValueError` in the `range` call. -/
theorem spec_c5 (s : Session) (lower upper : Int) (batch : Nat)
    (hb : 0 < batch) : cleanupSpec s lower upper batch := by
  unfold cleanupSpec
  refine ⟨?_, ?_, ?_, ?_, ?_, ?_, ?_, ?_⟩
  · unfold schedule_cell_cleanup
    rw [if_neg (by omega : ¬batch = 0)]
  · exact chunksAux_flatten batch hb _ _ le_rfl
  · exact fun c hc => chunksAux_mem_length batch _ _ c hc
  · exact fun i => mem_cellCleanupIds s lower upper i
  · unfold schedule_wifi_cleanup
    rw [if_neg (by omega : ¬batch = 0)]
  · exact chunksAux_flatten batch hb _ _ le_rfl
  · exact fun c hc => chunksAux_mem_length batch _ _ c hc
  · exact fun i => mem_wifiCleanupIds s lower upper i

/-- C5 witness: the amended scheduler contract instantiated at the concrete
session holding one unprocessed raw observation. -/
theorem spec_c5_witness : 0 < 1 ∧ cleanupSpec session5 4 10 1 :=
  ⟨by decide, spec_c5 session5 4 10 1 (by decide)⟩

/-- C9: a cell entry whose resolved radio is the unknown sentinel `-1` or
whose `lac` or `cid` is 0 still yields its derived `cell_measure` row,
appended to the session's derived rows, while every other part of the
session — the `cell` station registry, the score calls, everything — is left
exactly unchanged. -/
theorem spec_c9 (s : Session) (md : MeasureData) (e : CellEntry)
    (u : Option Int) (ha : e.mcc.isSome = true) (hb : e.mnc.isSome = true)
    (hinc : resolveCellRadio md e = -1 ∨ e.lac.getD 0 = 0 ∨
      e.cid.getD 0 = 0) :
    ∃ m, process_cell_measure s md [e] u =
      .ok ({ s with cell_measures := s.cell_measures ++ [m] }, [m]) := by
  obtain ⟨a, hma⟩ := Option.isSome_iff_exists.mp ha
  obtain ⟨b, hmb⟩ := Option.isSome_iff_exists.mp hb
  refine ⟨{ measure_id := md.id,
            created := decode_datetime (md.created.getD ""),
            lat := md.lat, lon := md.lon,
            time := decode_datetime (md.time.getD ""),
            accuracy := md.accuracy.getD 0, altitude := md.altitude.getD 0,
            altitude_accuracy := md.altitude_accuracy.getD 0,
            mcc := a, mnc := b, lac := e.lac.getD 0, cid := e.cid.getD 0,
            psc := e.psc.getD 0, asu := e.asu.getD 0,
            signal := e.signal.getD 0, ta := e.ta.getD 0,
            radio := resolveCellRadio md e }, ?_⟩
  unfold process_cell_measure
  simp only [processCellLoop, create_cell_measure_some md e a b hma hmb,
    List.nil_append, update_cell_measure_count]
  rw [if_pos hinc]

/-- C9 witness: the incomplete entry with `lac` 0 leaves the registry and
score state untouched while its derived row is still persisted. -/
theorem spec_c9_witness :
    entryLacZero.mcc.isSome = true ∧ entryLacZero.mnc.isSome = true ∧
    entryLacZero.lac.getD 0 = 0 ∧
    ∃ m, process_cell_measure emptySession md0 [entryLacZero] (some 2) =
      .ok ({ emptySession with
             cell_measures := emptySession.cell_measures ++ [m] }, [m]) := by
  refine ⟨rfl, rfl, rfl, ?_⟩
  exact spec_c9 emptySession md0 entryLacZero (some 2) rfl rfl
    (Or.inr (Or.inl rfl))

lemma cells_of_strip {s₁ s₂ : Session} (h : s₁.strip = s₂.strip) :
    s₁.cells = s₂.cells := by
  have h2 := congrArg Session.cells h
  exact h2

lemma wifis_of_strip {s₁ s₂ : Session} (h : s₁.strip = s₂.strip) :
    s₁.wifis = s₂.wifis := by
  have h2 := congrArg Session.wifis h
  exact h2

lemma cell_measures_of_strip {s₁ s₂ : Session} (h : s₁.strip = s₂.strip) :
    s₁.cell_measures = s₂.cell_measures := by
  have h2 := congrArg Session.cell_measures h
  exact h2

lemma wifi_measures_of_strip {s₁ s₂ : Session} (h : s₁.strip = s₂.strip) :
    s₁.wifi_measures = s₂.wifi_measures := by
  have h2 := congrArg Session.wifi_measures h
  exact h2

lemma strip_upd_cells {s₁ s₂ : Session} (h : s₁.strip = s₂.strip)
    (c : List CellRow) :
    ({ s₁ with cells := c }).strip = ({ s₂ with cells := c }).strip := by
  cases s₁; cases s₂; simp_all [Session.strip]

lemma strip_upd_wifis {s₁ s₂ : Session} (h : s₁.strip = s₂.strip)
    (w : List WifiRow) :
    ({ s₁ with wifis := w }).strip = ({ s₂ with wifis := w }).strip := by
  cases s₁; cases s₂; simp_all [Session.strip]

lemma strip_upd_cell_measures {s₁ s₂ : Session} (h : s₁.strip = s₂.strip)
    (c : List CellMeasure) :
    ({ s₁ with cell_measures := c }).strip =
      ({ s₂ with cell_measures := c }).strip := by
  cases s₁; cases s₂; simp_all [Session.strip]

lemma strip_upd_wifi_measures {s₁ s₂ : Session} (h : s₁.strip = s₂.strip)
    (w : List WifiMeasure) :
    ({ s₁ with wifi_measures := w }).strip =
      ({ s₂ with wifi_measures := w }).strip := by
  cases s₁; cases s₂; simp_all [Session.strip]

lemma process_score_strip (uid v : Int) (t : Session) (k : String) :
    (process_score uid v t k).strip = t.strip := rfl

lemma scoreOpt_strip (u : Option Int) (v : Int) (t : Session) (k : String) :
    (match u with
     | none => t
     | some uid => if v > 0 then process_score uid v t k else t).strip =
      t.strip := by
  cases u with
  | none => rfl
  | some uid =>
    dsimp only
    split
    · rfl
    · rfl

lemma insertCellOnDuplicate_strip {s₁ s₂ : Session} (h : s₁.strip = s₂.strip)
    (m : CellMeasure) :
    (insertCellOnDuplicate s₁ m).strip = (insertCellOnDuplicate s₂ m).strip := by
  unfold insertCellOnDuplicate
  rw [cells_of_strip h]
  by_cases hc : s₂.cells.any (fun c => decide (cellKeyMatch c m)) = true
  · rw [if_pos hc, if_pos hc]
    exact strip_upd_cells h _
  · rw [if_neg hc, if_neg hc]
    exact strip_upd_cells h _

lemma cellCountCheck_congr {s₁ s₂ : Session} (h : s₁.strip = s₂.strip)
    (m : CellMeasure) : cellCountCheck m s₁ = cellCountCheck m s₂ := by
  unfold cellCountCheck
  rw [cells_of_strip h]

lemma cellCountUpsert_strip {s₁ s₂ : Session} (h : s₁.strip = s₂.strip)
    (m : CellMeasure) (sawNew : Bool) (u₁ u₂ : Option Int) :
    (cellCountUpsert m sawNew u₁ s₁).strip =
      (cellCountUpsert m sawNew u₂ s₂).strip := by
  have e₁ : (cellCountUpsert m sawNew u₁ s₁).strip =
      (insertCellOnDuplicate s₁ m).strip :=
    scoreOpt_strip u₁ _ _ _
  have e₂ : (cellCountUpsert m sawNew u₂ s₂).strip =
      (insertCellOnDuplicate s₂ m).strip :=
    scoreOpt_strip u₂ _ _ _
  rw [e₁, e₂]
  exact insertCellOnDuplicate_strip h m

lemma update_cell_measure_count_strip {s₁ s₂ : Session}
    (h : s₁.strip = s₂.strip) (m : CellMeasure) (u₁ u₂ : Option Int) :
    (update_cell_measure_count m s₁ u₁).strip =
      (update_cell_measure_count m s₂ u₂).strip := by
  unfold update_cell_measure_count
  by_cases hc : m.radio = -1 ∨ m.lac = 0 ∨ m.cid = 0
  · rw [if_pos hc, if_pos hc]
    exact h
  · rw [if_neg hc, if_neg hc, cellCountCheck_congr h]
    exact cellCountUpsert_strip h m _ u₁ u₂

lemma processCellLoop_strip (md : MeasureData) (u₁ u₂ : Option Int) :
    ∀ (ce : List CellEntry) {s₁ s₂ : Session} (acc : List CellMeasure),
      s₁.strip = s₂.strip →
      (processCellLoop md u₁ ce s₁ acc).map (fun r => (r.1.strip, r.2)) =
      (processCellLoop md u₂ ce s₂ acc).map (fun r => (r.1.strip, r.2)) := by
  intro ce
  induction ce with
  | nil =>
    intro s₁ s₂ acc h
    simp [processCellLoop, Except.map, h]
  | cons e rest ih =>
    intro s₁ s₂ acc h
    cases hc : create_cell_measure md e with
    | error err => simp [processCellLoop, hc, Except.map]
    | ok cell0 =>
      simp only [processCellLoop, hc]
      exact ih _ (update_cell_measure_count_strip h _ u₁ u₂)

lemma insertWifiOnDuplicate_strip {s₁ s₂ : Session} (h : s₁.strip = s₂.strip)
    (k : String) (created : Timestamp) :
    (insertWifiOnDuplicate s₁ k created).strip =
      (insertWifiOnDuplicate s₂ k created).strip := by
  unfold insertWifiOnDuplicate
  rw [wifis_of_strip h]
  by_cases hc : s₂.wifis.any (fun w => decide (w.key = k)) = true
  · rw [if_pos hc, if_pos hc]
    exact strip_upd_wifis h _
  · rw [if_neg hc, if_neg hc]
    exact strip_upd_wifis h _

lemma update_wifi_measure_count_fst_strip {s₁ s₂ : Session}
    (h : s₁.strip = s₂.strip) (k : String) (wifis : List String)
    (created : Timestamp) (u₁ u₂ : Option Int) :
    (update_wifi_measure_count k wifis created s₁ u₁).1.strip =
      (update_wifi_measure_count k wifis created s₂ u₂).1.strip := by
  have e₁ : (update_wifi_measure_count k wifis created s₁ u₁).1.strip =
      (insertWifiOnDuplicate s₁ k created).strip :=
    scoreOpt_strip u₁ _ _ _
  have e₂ : (update_wifi_measure_count k wifis created s₂ u₂).1.strip =
      (insertWifiOnDuplicate s₂ k created).strip :=
    scoreOpt_strip u₂ _ _ _
  rw [e₁, e₂]
  exact insertWifiOnDuplicate_strip h k created

lemma update_wifi_measure_count_snd (k : String) (wifis : List String)
    (created : Timestamp) (s₁ s₂ : Session) (u₁ u₂ : Option Int) :
    (update_wifi_measure_count k wifis created s₁ u₁).2 =
      (update_wifi_measure_count k wifis created s₂ u₂).2 := rfl

lemma processWifiLoop_strip (md : MeasureData) (u₁ u₂ : Option Int)
    (created : Timestamp) (blacked : List String) :
    ∀ (we : List WifiEntry) (wifis : List String) {s₁ s₂ : Session}
      (acc : List WifiMeasure), s₁.strip = s₂.strip →
      (processWifiLoop md u₁ created blacked we wifis s₁ acc).map
        (fun r => (r.1.strip, r.2)) =
      (processWifiLoop md u₂ created blacked we wifis s₂ acc).map
        (fun r => (r.1.strip, r.2)) := by
  intro we
  induction we with
  | nil =>
    intro wifis s₁ s₂ acc h
    simp [processWifiLoop, Except.map, h]
  | cons e rest ih =>
    intro wifis s₁ s₂ acc h
    cases hk : getWifiKey e with
    | error err => simp [processWifiLoop, hk, Except.map]
    | ok k =>
      cases hcf : convert_frequency e with
      | error err => simp [processWifiLoop, hk, hcf, Except.map]
      | ok e2 =>
        cases hcw : create_wifi_measure md created e2 with
        | error err => simp [processWifiLoop, hk, hcf, hcw, Except.map]
        | ok wm =>
          simp only [processWifiLoop, hk, hcf, hcw]
          by_cases hb : k ∈ blacked
          · rw [if_pos hb, if_pos hb]
            exact ih _ _ h
          · rw [if_neg hb, if_neg hb]
            rw [update_wifi_measure_count_snd k wifis created s₁ s₂ u₁ u₂]
            exact ih _ _
              (update_wifi_measure_count_fst_strip h k wifis created u₁ u₂)

lemma insertCellOnDuplicate_scoreCalls (s : Session) (m : CellMeasure) :
    (insertCellOnDuplicate s m).scoreCalls = s.scoreCalls := by
  unfold insertCellOnDuplicate
  split
  · rfl
  · rfl

lemma insertWifiOnDuplicate_scoreCalls (s : Session) (k : String)
    (created : Timestamp) :
    (insertWifiOnDuplicate s k created).scoreCalls = s.scoreCalls := by
  unfold insertWifiOnDuplicate
  split
  · rfl
  · rfl

lemma update_cell_none_scoreCalls (m : CellMeasure) (s : Session) :
    (update_cell_measure_count m s none).scoreCalls = s.scoreCalls := by
  unfold update_cell_measure_count
  split
  · rfl
  · exact insertCellOnDuplicate_scoreCalls s m

lemma update_wifi_none_scoreCalls (k : String) (wifis : List String)
    (created : Timestamp) (s : Session) :
    (update_wifi_measure_count k wifis created s none).1.scoreCalls =
      s.scoreCalls :=
  insertWifiOnDuplicate_scoreCalls s k created

lemma processCellLoop_none_scoreCalls (md : MeasureData) :
    ∀ (ce : List CellEntry) (s : Session) (acc : List CellMeasure)
      (s2 : Session) (ms : List CellMeasure),
      processCellLoop md none ce s acc = .ok (s2, ms) →
      s2.scoreCalls = s.scoreCalls := by
  intro ce
  induction ce with
  | nil =>
    intro s acc s2 ms h
    simp only [processCellLoop] at h
    cases h
    rfl
  | cons e rest ih =>
    intro s acc s2 ms h
    cases hc : create_cell_measure md e with
    | error err => simp [processCellLoop, hc] at h
    | ok cell0 =>
      simp only [processCellLoop, hc] at h
      rw [ih _ _ _ _ h]
      exact update_cell_none_scoreCalls _ s

lemma processWifiLoop_none_scoreCalls (md : MeasureData) (created : Timestamp)
    (blacked : List String) :
    ∀ (we : List WifiEntry) (wifis : List String) (s : Session)
      (acc : List WifiMeasure) (r : Session × List String × List WifiMeasure),
      processWifiLoop md none created blacked we wifis s acc = .ok r →
      r.1.scoreCalls = s.scoreCalls := by
  intro we
  induction we with
  | nil =>
    intro wifis s acc r h
    simp only [processWifiLoop] at h
    cases h
    rfl
  | cons e rest ih =>
    intro wifis s acc r h
    cases hk : getWifiKey e with
    | error err => simp [processWifiLoop, hk] at h
    | ok k =>
      cases hcf : convert_frequency e with
      | error err => simp [processWifiLoop, hk, hcf] at h
      | ok e2 =>
        cases hcw : create_wifi_measure md created e2 with
        | error err => simp [processWifiLoop, hk, hcf, hcw] at h
        | ok wm =>
          simp only [processWifiLoop, hk, hcf, hcw] at h
          by_cases hb : k ∈ blacked
          · rw [if_pos hb] at h
            exact ih _ _ _ _ h
          · rw [if_neg hb] at h
            rw [ih _ _ _ _ h]
            exact update_wifi_none_scoreCalls k wifis created s

/-- C10: for every batch (cell or wifi) processed with no user identifier,
the external score collaborator is never invoked — the session's recorded
score calls are exactly the initial ones — even when the batch creates new
stations; and the run is otherwise indistinguishable (same success or
failure, same derived rows, same station-registry counter updates) from the
same run with any user identifier present. -/
theorem spec_c10 (s : Session) (md : MeasureData) (ce : List CellEntry)
    (we : List WifiEntry) (u : Int) : noUserSpec s md ce we u := by
  unfold noUserSpec
  refine ⟨?_, ?_, ?_, ?_⟩
  · have hloop := processCellLoop_strip md none (some u) ce []
      (rfl : s.strip = s.strip)
    unfold process_cell_measure
    cases hl₁ : processCellLoop md none ce s [] with
    | error err =>
      rw [hl₁] at hloop
      cases hl₂ : processCellLoop md (some u) ce s [] with
      | error err2 =>
        rw [hl₂] at hloop
        simp only [Except.map] at hloop
        cases hloop
        rfl
      | ok r2 =>
        rw [hl₂] at hloop
        simp [Except.map] at hloop
    | ok r1 =>
      obtain ⟨s1, ms1⟩ := r1
      cases hl₂ : processCellLoop md (some u) ce s [] with
      | error err2 =>
        rw [hl₁, hl₂] at hloop
        simp [Except.map] at hloop
      | ok r2 =>
        obtain ⟨s2, ms2⟩ := r2
        rw [hl₁, hl₂] at hloop
        simp only [Except.map] at hloop
        have h2 := Except.ok.inj hloop
        have hstrip : s1.strip = s2.strip := congrArg Prod.fst h2
        have hms : ms1 = ms2 := congrArg Prod.snd h2
        simp only [Except.map]
        rw [hms, cell_measures_of_strip hstrip,
          strip_upd_cell_measures hstrip (s2.cell_measures ++ ms2)]
  · intro r hr
    unfold process_cell_measure at hr
    cases hl : processCellLoop md none ce s [] with
    | error err => rw [hl] at hr; cases hr
    | ok r1 =>
      obtain ⟨s1, ms1⟩ := r1
      rw [hl] at hr
      cases hr
      exact processCellLoop_none_scoreCalls md ce s [] s1 ms1 hl
  · unfold process_wifi_measure
    cases hkeys : wifiKeysOf we with
    | error err => rfl
    | ok keys =>
      dsimp only
      have hloop := processWifiLoop_strip md none (some u)
        (decode_datetime (md.created.getD ""))
        (s.wifiBlacklist.filter (fun b => decide (b ∈ keys))) we
        ((s.wifis.filter (fun w => decide (w.key ∈ keys))).map
          (fun w => w.key)) []
        (rfl : s.strip = s.strip)
      cases hl₁ : processWifiLoop md none
          (decode_datetime (md.created.getD ""))
          (s.wifiBlacklist.filter (fun b => decide (b ∈ keys))) we
          ((s.wifis.filter (fun w => decide (w.key ∈ keys))).map
            (fun w => w.key)) s [] with
      | error err =>
        rw [hl₁] at hloop
        cases hl₂ : processWifiLoop md (some u)
            (decode_datetime (md.created.getD ""))
            (s.wifiBlacklist.filter (fun b => decide (b ∈ keys))) we
            ((s.wifis.filter (fun w => decide (w.key ∈ keys))).map
              (fun w => w.key)) s [] with
        | error err2 =>
          rw [hl₂] at hloop
          simp only [Except.map] at hloop
          cases hloop
          rfl
        | ok r2 =>
          rw [hl₂] at hloop
          simp [Except.map] at hloop
      | ok r1 =>
        obtain ⟨s1, w1, ms1⟩ := r1
        cases hl₂ : processWifiLoop md (some u)
            (decode_datetime (md.created.getD ""))
            (s.wifiBlacklist.filter (fun b => decide (b ∈ keys))) we
            ((s.wifis.filter (fun w => decide (w.key ∈ keys))).map
              (fun w => w.key)) s [] with
        | error err2 =>
          rw [hl₁, hl₂] at hloop
          simp [Except.map] at hloop
        | ok r2 =>
          obtain ⟨s2, w2, ms2⟩ := r2
          rw [hl₁, hl₂] at hloop
          simp only [Except.map] at hloop
          have h2 := Except.ok.inj hloop
          have hstrip : s1.strip = s2.strip := congrArg Prod.fst h2
          have hrest := congrArg Prod.snd h2
          have hms : ms1 = ms2 := congrArg Prod.snd hrest
          simp only [Except.map]
          rw [hms, wifi_measures_of_strip hstrip,
            strip_upd_wifi_measures hstrip (s2.wifi_measures ++ ms2)]
  · intro r hr
    unfold process_wifi_measure at hr
    cases hkeys : wifiKeysOf we with
    | error err => rw [hkeys] at hr; cases hr
    | ok keys =>
      rw [hkeys] at hr
      dsimp only at hr
      cases hl : processWifiLoop md none
          (decode_datetime (md.created.getD ""))
          (s.wifiBlacklist.filter (fun b => decide (b ∈ keys))) we
          ((s.wifis.filter (fun w => decide (w.key ∈ keys))).map
            (fun w => w.key)) s [] with
      | error err => rw [hl] at hr; cases hr
      | ok r1 =>
        obtain ⟨s1, w1, ms1⟩ := r1
        rw [hl] at hr
        cases hr
        exact processWifiLoop_none_scoreCalls md
          (decode_datetime (md.created.getD ""))
          (s.wifiBlacklist.filter (fun b => decide (b ∈ keys))) we
          ((s.wifis.filter (fun w => decide (w.key ∈ keys))).map
            (fun w => w.key)) s [] (s1, w1, ms1) hl

/-- C10 witness: a batch creating a new station per kind, run with no user
identifier. -/
theorem spec_c10_witness : noUserSpec emptySession md0 [entryC8] [wifiBb] 5 :=
  spec_c10 emptySession md0 [entryC8] [wifiBb] 5

lemma convert_frequency_key (e e2 : WifiEntry)
    (h : convert_frequency e = .ok e2) : e2.key = e.key := by
  unfold convert_frequency at h
  by_cases hf : e.frequency.getD 0 = 0
  · rw [if_pos hf] at h
    cases h
    rfl
  · rw [if_neg hf] at h
    cases hch : e.channel with
    | none => rw [hch] at h; cases h
    | some ch =>
      rw [hch] at h
      dsimp only at h
      by_cases h0 : ch = 0
      · rw [if_pos h0] at h
        by_cases hb1 : 2411 < e.frequency.getD 0 ∧ e.frequency.getD 0 < 2473
        · rw [if_pos hb1] at h
          cases h
          rfl
        · rw [if_neg hb1] at h
          by_cases hb2 : 5169 < e.frequency.getD 0 ∧ e.frequency.getD 0 < 5826
          · rw [if_pos hb2] at h
            cases h
            rfl
          · rw [if_neg hb2] at h
            cases h
            rfl
      · rw [if_neg h0] at h
        cases h
        rfl

lemma convert_frequency_ok (e : WifiEntry)
    (h : e.channel.isSome = true ∨ e.frequency.getD 0 = 0) :
    ∃ r, convert_frequency e = .ok r := by
  unfold convert_frequency
  by_cases hf : e.frequency.getD 0 = 0
  · rw [if_pos hf]
    exact ⟨_, rfl⟩
  · rw [if_neg hf]
    rcases h with h | h
    · obtain ⟨ch, hch⟩ := Option.isSome_iff_exists.mp h
      rw [hch]
      dsimp only
      by_cases h0 : ch = 0
      · rw [if_pos h0]
        split
        · exact ⟨_, rfl⟩
        · split
          · exact ⟨_, rfl⟩
          · exact ⟨_, rfl⟩
      · rw [if_neg h0]
        exact ⟨_, rfl⟩
    · exact absurd h hf

lemma getWifiKey_ok_key (e : WifiEntry) (k : String)
    (h : getWifiKey e = .ok k) : e.key = some k := by
  unfold getWifiKey requireKey at h
  cases hk : e.key with
  | none => rw [hk] at h; cases h
  | some k0 => rw [hk] at h; cases h; rfl

lemma create_wifi_measure_some (md : MeasureData) (created : Timestamp)
    (e : WifiEntry) (k : String) (h : e.key = some k) :
    create_wifi_measure md created e = .ok
      { measure_id := md.id, created := created, lat := md.lat,
        lon := md.lon, time := decode_datetime (md.time.getD ""),
        accuracy := md.accuracy.getD 0, altitude := md.altitude.getD 0,
        altitude_accuracy := md.altitude_accuracy.getD 0, id := e.id,
        key := k, channel := e.channel.getD 0,
        signal := e.signal.getD 0 } := by
  unfold create_wifi_measure getWifiKey requireKey
  rw [h]

lemma create_wifi_measure_key (md : MeasureData) (created : Timestamp)
    (e : WifiEntry) (wm : WifiMeasure)
    (h : create_wifi_measure md created e = .ok wm) : e.key = some wm.key := by
  cases hk : e.key with
  | none =>
    unfold create_wifi_measure getWifiKey requireKey at h
    rw [hk] at h
    cases h
  | some k0 =>
    rw [create_wifi_measure_some md created e k0 hk] at h
    cases h
    rfl

lemma update_wifi_measure_count_wifis (k0 : String) (w : List String)
    (c : Timestamp) (s : Session) (u : Option Int) :
    (update_wifi_measure_count k0 w c s u).1.wifis =
      (insertWifiOnDuplicate s k0 c).wifis := by
  unfold update_wifi_measure_count
  dsimp only
  cases u with
  | none => rfl
  | some uid =>
    dsimp only
    split
    · rfl
    · rfl

lemma filter_map_bump (l : List WifiRow) (q k : String) (hne : q ≠ k) :
    (l.map (fun w => if w.key = q then wifiBump w else w)).filter
      (fun w => decide (w.key = k)) =
      l.filter (fun w => decide (w.key = k)) := by
  induction l with
  | nil => rfl
  | cons w rest ih =>
    simp only [List.map_cons, List.filter_cons]
    by_cases hw : w.key = q
    · rw [if_pos hw]
      have h1 : (decide ((wifiBump w).key = k)) = false := by
        simp only [wifiBump]
        simp [hw, hne]
      have h2 : (decide (w.key = k)) = false := by simp [hw, hne]
      rw [h1, h2, ih]
      simp
    · rw [if_neg hw, ih]

lemma insertWifi_filter_ne (s : Session) (q : String) (c : Timestamp)
    (k : String) (hne : q ≠ k) :
    (insertWifiOnDuplicate s q c).wifis.filter
      (fun w => decide (w.key = k)) =
      s.wifis.filter (fun w => decide (w.key = k)) := by
  unfold insertWifiOnDuplicate
  split
  · exact filter_map_bump s.wifis q k hne
  · simp only [List.filter_append]
    simp [hne]

lemma update_wifi_congr (k0 k : String) (w₁ w₂ : List String) (c : Timestamp)
    (s : Session) (u : Option Int) (h0 : k0 ∈ w₁ ↔ k0 ∈ w₂)
    (hw : ∀ q, q ≠ k → (q ∈ w₁ ↔ q ∈ w₂)) :
    (update_wifi_measure_count k0 w₁ c s u).1 =
      (update_wifi_measure_count k0 w₂ c s u).1 ∧
    (∀ q, q ≠ k →
      (q ∈ (update_wifi_measure_count k0 w₁ c s u).2 ↔
       q ∈ (update_wifi_measure_count k0 w₂ c s u).2)) := by
  unfold update_wifi_measure_count
  by_cases hm : k0 ∈ w₁
  · have hm2 : k0 ∈ w₂ := h0.mp hm
    rw [if_pos hm, if_pos hm2]
    exact ⟨rfl, fun q hq => hw q hq⟩
  · have hm2 : k0 ∉ w₂ := fun hh => hm (h0.mpr hh)
    rw [if_neg hm, if_neg hm2]
    refine ⟨rfl, fun q hq => ?_⟩
    simp only [List.mem_append, List.mem_singleton]
    exact or_congr (hw q hq) Iff.rfl

lemma processWifiLoop_length (md : MeasureData) (u : Option Int)
    (created : Timestamp) (blacked : List String) :
    ∀ (we : List WifiEntry) (wifis : List String) (s : Session)
      (acc : List WifiMeasure) (r : Session × List String × List WifiMeasure),
      processWifiLoop md u created blacked we wifis s acc = .ok r →
      r.2.2.length = acc.length + we.length := by
  intro we
  induction we with
  | nil =>
    intro wifis s acc r h
    simp only [processWifiLoop] at h
    cases h
    simp
  | cons e rest ih =>
    intro wifis s acc r h
    cases hk : getWifiKey e with
    | error err => simp [processWifiLoop, hk] at h
    | ok k0 =>
      cases hcf : convert_frequency e with
      | error err => simp [processWifiLoop, hk, hcf] at h
      | ok e2 =>
        cases hcw : create_wifi_measure md created e2 with
        | error err => simp [processWifiLoop, hk, hcf, hcw] at h
        | ok wm =>
          simp only [processWifiLoop, hk, hcf, hcw] at h
          by_cases hb : k0 ∈ blacked
          · rw [if_pos hb] at h
            have := ih _ _ _ _ h
            simp only [List.length_append, List.length_cons,
              List.length_nil] at this ⊢
            omega
          · rw [if_neg hb] at h
            have := ih _ _ _ _ h
            simp only [List.length_append, List.length_cons,
              List.length_nil] at this ⊢
            omega

lemma processWifiLoop_count_key (md : MeasureData) (u : Option Int)
    (created : Timestamp) (blacked : List String) (k : String) :
    ∀ (we : List WifiEntry) (wifis : List String) (s : Session)
      (acc : List WifiMeasure) (r : Session × List String × List WifiMeasure),
      processWifiLoop md u created blacked we wifis s acc = .ok r →
      (r.2.2.filter (fun wm => decide (wm.key = k))).length =
        (acc.filter (fun wm => decide (wm.key = k))).length +
        (we.filter (fun e => decide (e.key = some k))).length := by
  intro we
  induction we with
  | nil =>
    intro wifis s acc r h
    simp only [processWifiLoop] at h
    cases h
    simp
  | cons e rest ih =>
    intro wifis s acc r h
    cases hk : getWifiKey e with
    | error err => simp [processWifiLoop, hk] at h
    | ok k0 =>
      cases hcf : convert_frequency e with
      | error err => simp [processWifiLoop, hk, hcf] at h
      | ok e2 =>
        cases hcw : create_wifi_measure md created e2 with
        | error err => simp [processWifiLoop, hk, hcf, hcw] at h
        | ok wm =>
          have hek : e.key = some k0 := getWifiKey_ok_key e k0 hk
          have he2 : e2.key = e.key := convert_frequency_key e e2 hcf
          have hwmk : wm.key = k0 := by
            have h2 := create_wifi_measure_key md created e2 wm hcw
            rw [he2, hek] at h2
            exact (Option.some.inj h2).symm
          simp only [processWifiLoop, hk, hcf, hcw] at h
          have hstep : ∀ r2, processWifiLoop md u created blacked rest
              (if k0 ∈ blacked then wifis
               else (update_wifi_measure_count k0 wifis created s u).2)
              (if k0 ∈ blacked then s
               else (update_wifi_measure_count k0 wifis created s u).1)
              (acc ++ [wm]) = .ok r2 →
              (r2.2.2.filter (fun wm => decide (wm.key = k))).length =
                ((acc ++ [wm]).filter (fun wm => decide (wm.key = k))).length +
                (rest.filter (fun e => decide (e.key = some k))).length :=
            fun r2 h2 => ih _ _ _ _ h2
          by_cases hb : k0 ∈ blacked
          · rw [if_pos hb] at h
            have hrec := ih _ _ _ _ h
            rw [hrec]
            simp only [List.filter_append, List.filter_cons,
              List.length_append, hwmk, hek]
            by_cases hkk : k0 = k
            · simp [hkk]
              omega
            · simp [hkk]
          · rw [if_neg hb] at h
            have hrec := ih _ _ _ _ h
            rw [hrec]
            simp only [List.filter_append, List.filter_cons,
              List.length_append, hwmk, hek]
            by_cases hkk : k0 = k
            · simp [hkk]
              omega
            · simp [hkk]

lemma processWifiLoop_black_rows (md : MeasureData) (u : Option Int)
    (created : Timestamp) (blacked : List String) (k : String) :
    ∀ (we : List WifiEntry) (wifis : List String) (s : Session)
      (acc : List WifiMeasure) (r : Session × List String × List WifiMeasure),
      (∀ e ∈ we, e.key = some k → k ∈ blacked) →
      processWifiLoop md u created blacked we wifis s acc = .ok r →
      r.1.wifis.filter (fun w => decide (w.key = k)) =
        s.wifis.filter (fun w => decide (w.key = k)) := by
  intro we
  induction we with
  | nil =>
    intro wifis s acc r hwf h
    simp only [processWifiLoop] at h
    cases h
    rfl
  | cons e rest ih =>
    intro wifis s acc r hwf h
    cases hk : getWifiKey e with
    | error err => simp [processWifiLoop, hk] at h
    | ok k0 =>
      cases hcf : convert_frequency e with
      | error err => simp [processWifiLoop, hk, hcf] at h
      | ok e2 =>
        cases hcw : create_wifi_measure md created e2 with
        | error err => simp [processWifiLoop, hk, hcf, hcw] at h
        | ok wm =>
          simp only [processWifiLoop, hk, hcf, hcw] at h
          by_cases hb : k0 ∈ blacked
          · rw [if_pos hb] at h
            exact ih _ _ _ _ (fun x hx hxk => hwf x (by simp [hx]) hxk) h
          · rw [if_neg hb] at h
            have hne : k0 ≠ k := by
              intro hkk
              subst hkk
              exact hb (hwf e (by simp) (getWifiKey_ok_key e k0 hk))
            have hrec := ih _ _ _ _
              (fun x hx hxk => hwf x (by simp [hx]) hxk) h
            rw [hrec, update_wifi_measure_count_wifis,
              insertWifi_filter_ne s k0 created k hne]

lemma processWifiLoop_ok_convert (md : MeasureData) (u : Option Int)
    (created : Timestamp) (blacked : List String) :
    ∀ (we : List WifiEntry) (wifis : List String) (s : Session)
      (acc : List WifiMeasure) (r : Session × List String × List WifiMeasure),
      processWifiLoop md u created blacked we wifis s acc = .ok r →
      ∀ e ∈ we, ∃ e2, convert_frequency e = .ok e2 := by
  intro we
  induction we with
  | nil =>
    intro wifis s acc r h e he
    simp at he
  | cons e0 rest ih =>
    intro wifis s acc r h e he
    cases hk : getWifiKey e0 with
    | error err => simp [processWifiLoop, hk] at h
    | ok k0 =>
      cases hcf : convert_frequency e0 with
      | error err => simp [processWifiLoop, hk, hcf] at h
      | ok e2 =>
        cases hcw : create_wifi_measure md created e2 with
        | error err => simp [processWifiLoop, hk, hcf, hcw] at h
        | ok wm =>
          simp only [processWifiLoop, hk, hcf, hcw] at h
          rcases List.mem_cons.mp he with rfl | he2
          · exact ⟨e2, hcf⟩
          · by_cases hb : k0 ∈ blacked
            · rw [if_pos hb] at h
              exact ih _ _ _ _ h e he2
            · rw [if_neg hb] at h
              exact ih _ _ _ _ h e he2

lemma processWifiLoop_filter_black (md : MeasureData) (u : Option Int)
    (created : Timestamp) (k : String) (b₁ b₂ : List String)
    (hb : ∀ q, q ≠ k → (q ∈ b₁ ↔ q ∈ b₂)) :
    ∀ (we : List WifiEntry) (w₁ w₂ : List String) (s : Session)
      (a₁ a₂ : List WifiMeasure),
      (∀ e ∈ we, e.key = some k →
        k ∈ b₁ ∧ ∃ e2, convert_frequency e = .ok e2) →
      (∀ q, q ≠ k → (q ∈ w₁ ↔ q ∈ w₂)) →
      (∀ r₁, processWifiLoop md u created b₁ we w₁ s a₁ = .ok r₁ →
        ∃ r₂, processWifiLoop md u created b₂
            (we.filter (fun x => !decide (x.key = some k))) w₂ s a₂ =
          .ok r₂ ∧ r₂.1 = r₁.1) ∧
      (∀ err, processWifiLoop md u created b₁ we w₁ s a₁ = .error err →
        processWifiLoop md u created b₂
          (we.filter (fun x => !decide (x.key = some k))) w₂ s a₂ =
          .error err) := by
  intro we
  induction we with
  | nil =>
    intro w₁ w₂ s a₁ a₂ hwf hw
    constructor
    · intro r₁ h1
      simp only [processWifiLoop] at h1
      cases h1
      exact ⟨(s, w₂, a₂), rfl, rfl⟩
    · intro err h1
      simp only [processWifiLoop] at h1
      cases h1
  | cons e rest ih =>
    intro w₁ w₂ s a₁ a₂ hwf hw
    have hwfr : ∀ x ∈ rest, x.key = some k →
        k ∈ b₁ ∧ ∃ e2, convert_frequency x = .ok e2 :=
      fun x hx hxk => hwf x (by simp [hx]) hxk
    cases hek : e.key with
    | none =>
      have hL : processWifiLoop md u created b₁ (e :: rest) w₁ s a₁ =
          .error .keyError := by
        simp [processWifiLoop, getWifiKey_none e hek]
      have hfc : (e :: rest).filter (fun x => !decide (x.key = some k)) =
          e :: rest.filter (fun x => !decide (x.key = some k)) := by
        simp [List.filter_cons, hek]
      have hR : processWifiLoop md u created b₂
          ((e :: rest).filter (fun x => !decide (x.key = some k))) w₂ s a₂ =
          .error .keyError := by
        rw [hfc]
        simp [processWifiLoop, getWifiKey_none e hek]
      constructor
      · intro r₁ h1
        rw [hL] at h1
        cases h1
      · intro err h1
        rw [hL] at h1
        cases h1
        exact hR
    | some k0 =>
      have hgk : getWifiKey e = .ok k0 := by
        unfold getWifiKey requireKey
        rw [hek]
      by_cases hkk : k0 = k
      · subst hkk
        obtain ⟨hkb, e2, hcf⟩ := hwf e (by simp) hek
        have he2k : e2.key = some k0 := by
          rw [convert_frequency_key e e2 hcf, hek]
        have hfc : (e :: rest).filter (fun x => !decide (x.key = some k0)) =
            rest.filter (fun x => !decide (x.key = some k0)) := by
          simp [List.filter_cons, hek]
        rw [hfc]
        simp only [processWifiLoop, hgk, hcf,
          create_wifi_measure_some md created e2 k0 he2k]
        rw [if_pos hkb]
        exact ih w₁ w₂ s _ a₂ hwfr hw
      · have hfc : (e :: rest).filter (fun x => !decide (x.key = some k)) =
            e :: rest.filter (fun x => !decide (x.key = some k)) := by
          simp [List.filter_cons, hek, hkk]
        rw [hfc]
        cases hcf : convert_frequency e with
        | error err0 =>
          have hL : processWifiLoop md u created b₁ (e :: rest) w₁ s a₁ =
              .error err0 := by
            simp [processWifiLoop, hgk, hcf]
          have hR : processWifiLoop md u created b₂
              (e :: rest.filter (fun x => !decide (x.key = some k))) w₂ s a₂ =
              .error err0 := by
            simp [processWifiLoop, hgk, hcf]
          constructor
          · intro r₁ h1
            rw [hL] at h1
            cases h1
          · intro err h1
            rw [hL] at h1
            cases h1
            exact hR
        | ok e2 =>
          have he2k : e2.key = some k0 := by
            rw [convert_frequency_key e e2 hcf, hek]
          simp only [processWifiLoop, hgk, hcf,
            create_wifi_measure_some md created e2 k0 he2k]
          by_cases hbb : k0 ∈ b₁
          · have hbb2 : k0 ∈ b₂ := (hb k0 hkk).mp hbb
            rw [if_pos hbb, if_pos hbb2]
            exact ih w₁ w₂ s _ _ hwfr hw
          · have hbb2 : k0 ∉ b₂ := fun hh => hbb ((hb k0 hkk).mpr hh)
            obtain ⟨hupd1, hupd2⟩ :=
              update_wifi_congr k0 k w₁ w₂ created s u (hw k0 hkk) hw
            rw [if_neg hbb, if_neg hbb2, ← hupd1]
            exact ih _ _ _ _ _ hwfr hupd2

lemma wifiKeysOf_cons (e : WifiEntry) (rest : List WifiEntry)
    (keys : List String) (h : wifiKeysOf (e :: rest) = .ok keys) :
    ∃ k0 ks, getWifiKey e = .ok k0 ∧ wifiKeysOf rest = .ok ks ∧
      keys = k0 :: ks := by
  unfold wifiKeysOf at h
  cases hk : getWifiKey e with
  | error err => rw [hk] at h; cases h
  | ok k0 =>
    rw [hk] at h
    cases hr : wifiKeysOf rest with
    | error err => rw [hr] at h; cases h
    | ok ks =>
      rw [hr] at h
      cases h
      exact ⟨k0, ks, rfl, rfl, rfl⟩

lemma wifiKeysOf_filter (k : String) :
    ∀ (we : List WifiEntry) (keys : List String),
      wifiKeysOf we = .ok keys →
      wifiKeysOf (we.filter (fun x => !decide (x.key = some k))) =
        .ok (keys.filter (fun q => !decide (q = k))) := by
  intro we
  induction we with
  | nil =>
    intro keys h
    simp only [wifiKeysOf] at h
    cases h
    rfl
  | cons e rest ih =>
    intro keys h
    obtain ⟨k0, ks, hk, hr, rfl⟩ := wifiKeysOf_cons e rest keys h
    have hek : e.key = some k0 := getWifiKey_ok_key e k0 hk
    by_cases hkk : k0 = k
    · subst hkk
      have hfc : (e :: rest).filter (fun x => !decide (x.key = some k0)) =
          rest.filter (fun x => !decide (x.key = some k0)) := by
        simp [List.filter_cons, hek]
      have hfk : (k0 :: ks).filter (fun q => !decide (q = k0)) =
          ks.filter (fun q => !decide (q = k0)) := by
        simp [List.filter_cons]
      rw [hfc, hfk]
      exact ih ks hr
    · have hfc : (e :: rest).filter (fun x => !decide (x.key = some k)) =
          e :: rest.filter (fun x => !decide (x.key = some k)) := by
        simp [List.filter_cons, hek, hkk]
      have hfk : (k0 :: ks).filter (fun q => !decide (q = k)) =
          k0 :: ks.filter (fun q => !decide (q = k)) := by
        simp [List.filter_cons, hkk]
      rw [hfc, hfk]
      unfold wifiKeysOf
      rw [hk, ih ks hr]

lemma wifiKeysOf_mem :
    ∀ (we : List WifiEntry) (keys : List String) (e : WifiEntry)
      (q : String), wifiKeysOf we = .ok keys → e ∈ we → e.key = some q →
      q ∈ keys := by
  intro we
  induction we with
  | nil =>
    intro keys e q h he
    simp at he
  | cons e0 rest ih =>
    intro keys e q h he heq
    obtain ⟨k0, ks, hk, hr, rfl⟩ := wifiKeysOf_cons e0 rest keys h
    rcases List.mem_cons.mp he with rfl | he2
    · have : k0 = q := by
        have h2 := getWifiKey_ok_key e k0 hk
        rw [heq] at h2
        exact (Option.some.inj h2).symm
      simp [this]
    · simp [ih ks e q hr he2 heq]

/-- C6: for a wifi key `k` present in the blacklist store, a successfully
processed report persists every derived row (as many rows for `k` as it has
entries for `k`), yet the wifi station registry and the score calls end
exactly as they would had the `k` entries not been submitted at all — no
counter update and no score credit for `k`, with `k`'s registry rows left
untouched — while non-blacklisted keys in the same batch are counted
normally (identically to the run without the `k` entries). -/
theorem spec_c6 (s : Session) (md : MeasureData) (we : List WifiEntry)
    (u : Option Int) (k : String) (hk : k ∈ s.wifiBlacklist)
    (hok : exceptOk (process_wifi_measure s md we u) = true) :
    blacklistSpec s md we u k := by
  cases hkeys : wifiKeysOf we with
  | error err =>
    have hP : process_wifi_measure s md we u = .error err := by
      unfold process_wifi_measure
      rw [hkeys]
    rw [hP] at hok
    simp [exceptOk] at hok
  | ok keys =>
    cases hloop1 : processWifiLoop md u (decode_datetime (md.created.getD ""))
        (s.wifiBlacklist.filter (fun b => decide (b ∈ keys))) we
        ((s.wifis.filter (fun w => decide (w.key ∈ keys))).map
          (fun w => w.key)) s [] with
    | error err =>
      have hP : process_wifi_measure s md we u = .error err := by
        unfold process_wifi_measure
        rw [hkeys]
        dsimp only
        rw [hloop1]
      rw [hP] at hok
      simp [exceptOk] at hok
    | ok r1 =>
      have hP : process_wifi_measure s md we u =
          .ok ({ r1.1 with wifi_measures := r1.1.wifi_measures ++ r1.2.2 },
            r1.2.2) := by
        unfold process_wifi_measure
        rw [hkeys]
        dsimp only
        rw [hloop1]
      have hconv := processWifiLoop_ok_convert md u
        (decode_datetime (md.created.getD ""))
        (s.wifiBlacklist.filter (fun b => decide (b ∈ keys))) we
        ((s.wifis.filter (fun w => decide (w.key ∈ keys))).map
          (fun w => w.key)) s [] r1 hloop1
      have hwf : ∀ e ∈ we, e.key = some k →
          k ∈ s.wifiBlacklist.filter (fun b => decide (b ∈ keys)) ∧
          ∃ e2, convert_frequency e = .ok e2 := by
        intro e he hek
        refine ⟨?_, hconv e he⟩
        rw [List.mem_filter]
        exact ⟨hk, by simp [wifiKeysOf_mem we keys e k hkeys he hek]⟩
      have hkeysF := wifiKeysOf_filter k we keys hkeys
      have hb : ∀ q, q ≠ k →
          (q ∈ s.wifiBlacklist.filter (fun b => decide (b ∈ keys)) ↔
           q ∈ s.wifiBlacklist.filter (fun b =>
             decide (b ∈ keys.filter (fun x => !decide (x = k))))) := by
        intro q hq
        rw [List.mem_filter, List.mem_filter]
        constructor
        · rintro ⟨h1, h2⟩
          simp only [decide_eq_true_eq] at h2
          refine ⟨h1, ?_⟩
          simp [List.mem_filter, h2, hq]
        · rintro ⟨h1, h2⟩
          simp only [decide_eq_true_eq, List.mem_filter] at h2
          refine ⟨h1, ?_⟩
          simp [h2.1]
      have hw : ∀ q, q ≠ k →
          (q ∈ (s.wifis.filter (fun w => decide (w.key ∈ keys))).map
            (fun w => w.key) ↔
           q ∈ (s.wifis.filter (fun w =>
             decide (w.key ∈ keys.filter (fun x => !decide (x = k))))).map
            (fun w => w.key)) := by
        intro q hq
        simp only [List.mem_map, List.mem_filter, decide_eq_true_eq]
        constructor
        · rintro ⟨w, ⟨hw1, hw2⟩, rfl⟩
          refine ⟨w, ⟨hw1, ?_⟩, rfl⟩
          simp [List.mem_filter, hw2, hq]
        · rintro ⟨w, ⟨hw1, hw2⟩, rfl⟩
          simp only [List.mem_filter, Bool.not_eq_true',
            decide_eq_false_iff_not, decide_eq_true_eq] at hw2
          exact ⟨w, ⟨hw1, hw2.1⟩, rfl⟩
      obtain ⟨hokCase, _⟩ := processWifiLoop_filter_black md u
        (decode_datetime (md.created.getD "")) k
        (s.wifiBlacklist.filter (fun b => decide (b ∈ keys)))
        (s.wifiBlacklist.filter (fun b =>
          decide (b ∈ keys.filter (fun x => !decide (x = k))))) hb we
        ((s.wifis.filter (fun w => decide (w.key ∈ keys))).map
          (fun w => w.key))
        ((s.wifis.filter (fun w =>
          decide (w.key ∈ keys.filter (fun x => !decide (x = k))))).map
          (fun w => w.key)) s [] [] hwf hw
      obtain ⟨r2, hloop2, hsess⟩ := hokCase r1 hloop1
      have hPF : process_wifi_measure s md
          (we.filter (fun x => !decide (x.key = some k))) u =
          .ok ({ r2.1 with wifi_measures := r2.1.wifi_measures ++ r2.2.2 },
            r2.2.2) := by
        unfold process_wifi_measure
        rw [hkeysF]
        dsimp only
        rw [hloop2]
      have hlen := processWifiLoop_length md u
        (decode_datetime (md.created.getD ""))
        (s.wifiBlacklist.filter (fun b => decide (b ∈ keys))) we
        ((s.wifis.filter (fun w => decide (w.key ∈ keys))).map
          (fun w => w.key)) s [] r1 hloop1
      have hcount := processWifiLoop_count_key md u
        (decode_datetime (md.created.getD ""))
        (s.wifiBlacklist.filter (fun b => decide (b ∈ keys))) k we
        ((s.wifis.filter (fun w => decide (w.key ∈ keys))).map
          (fun w => w.key)) s [] r1 hloop1
      have hrows := processWifiLoop_black_rows md u
        (decode_datetime (md.created.getD ""))
        (s.wifiBlacklist.filter (fun b => decide (b ∈ keys))) k we
        ((s.wifis.filter (fun w => decide (w.key ∈ keys))).map
          (fun w => w.key)) s [] r1
        (fun e he hek => (hwf e he hek).1) hloop1
      unfold blacklistSpec
      rw [hP, hPF]
      simp only [Except.map]
      refine ⟨?_, ?_, ?_, ?_, ?_⟩
      · rw [hsess]
      · rw [hsess]
      · have h3 : r1.2.2.length = we.length := by simpa using hlen
        rw [h3]
      · have h4 : (r1.2.2.filter (fun wm => decide (wm.key = k))).length =
            (we.filter (fun e => decide (e.key = some k))).length := by
          simpa using hcount
        rw [h4]
      · rw [hrows]

/-- C6 witness: two entries for the blacklisted key "aa" and one for the
fresh key "bb", processed for user 3. -/
theorem spec_c6_witness :
    "aa" ∈ blackSession.wifiBlacklist ∧
    exceptOk (process_wifi_measure blackSession md0 [wifiAa, wifiAa, wifiBb]
      (some 3)) = true ∧
    blacklistSpec blackSession md0 [wifiAa, wifiAa, wifiBb] (some 3) "aa" := by
  refine ⟨by decide, by decide, ?_⟩
  exact spec_c6 blackSession md0 [wifiAa, wifiAa, wifiBb] (some 3) "aa"
    (by decide) (by decide)

lemma wifiKeysOf_ok :
    ∀ (we : List WifiEntry), (∀ e ∈ we, e.key.isSome = true) →
      ∃ ks, wifiKeysOf we = .ok ks := by
  intro we
  induction we with
  | nil => exact fun _ => ⟨[], rfl⟩
  | cons e rest ih =>
    intro h
    obtain ⟨k, hk⟩ := Option.isSome_iff_exists.mp (h e (by simp))
    obtain ⟨ks, hks⟩ := ih (fun x hx => h x (by simp [hx]))
    refine ⟨k :: ks, ?_⟩
    unfold wifiKeysOf
    rw [getWifiKey_some e k hk, hks]

lemma processWifiLoop_ok_of_entries (md : MeasureData) (u : Option Int)
    (created : Timestamp) (blacked : List String) :
    ∀ (we : List WifiEntry) (wifis : List String) (s : Session)
      (acc : List WifiMeasure),
      (∀ e ∈ we, e.key.isSome = true ∧
        (e.channel.isSome = true ∨ e.frequency.getD 0 = 0)) →
      ∃ r, processWifiLoop md u created blacked we wifis s acc = .ok r ∧
        r.2.2.length = acc.length + we.length := by
  intro we
  induction we with
  | nil =>
    intro wifis s acc h
    exact ⟨(s, wifis, acc), rfl, by simp⟩
  | cons e rest ih =>
    intro wifis s acc h
    obtain ⟨hks, hch⟩ := h e (by simp)
    obtain ⟨k, hk⟩ := Option.isSome_iff_exists.mp hks
    obtain ⟨e2, hcf⟩ := convert_frequency_ok e hch
    have he2k : e2.key = some k := by
      rw [convert_frequency_key e e2 hcf, hk]
    have hrest : ∀ x ∈ rest, x.key.isSome = true ∧
        (x.channel.isSome = true ∨ x.frequency.getD 0 = 0) :=
      fun x hx => h x (by simp [hx])
    simp only [processWifiLoop, getWifiKey_some e k hk, hcf,
      create_wifi_measure_some md created e2 k he2k]
    by_cases hb : k ∈ blacked
    · rw [if_pos hb]
      obtain ⟨r, hr, hlen⟩ := ih _ _ _ hrest
      refine ⟨r, hr, ?_⟩
      simp only [List.length_append, List.length_cons, List.length_nil]
        at hlen ⊢
      omega
    · rw [if_neg hb]
      obtain ⟨r, hr, hlen⟩ := ih _ _ _ hrest
      refine ⟨r, hr, ?_⟩
      simp only [List.length_append, List.length_cons, List.length_nil]
        at hlen ⊢
      omega

/-- C4 (amended): entries missing only optional fields are defaulted and the
batch fully processes, provided every entry carries its station key and, for
wifi, its channel key whenever a nonzero frequency is present: a cell batch
in which every entry has `mcc` and `mnc` succeeds with one derived row per
entry, and a wifi batch in which every entry has `key` and either a present
channel key or no nonzero frequency succeeds with one derived row per entry.
But a bad entry is never defaulted or skipped locally: a cell entry without
`mcc` or `mnc`, or a wifi entry without `key`, raises a `KeyError` that
aborts the entire batch, persisting none of its sibling entries (a wifi
entry whose channel key is absent while a nonzero frequency is present
aborts the batch the same way, per the `convert_frequency` behavior of the
C2/C3 corrections). -/
theorem spec_c4 (s : Session) (md : MeasureData) (ce : List CellEntry)
    (we : List WifiEntry) (u : Option Int) :
    ((∀ e ∈ ce, e.mcc.isSome = true ∧ e.mnc.isSome = true) →
      ∃ s2 ms, process_cell_measure s md ce u = .ok (s2, ms) ∧
        ms.length = ce.length) ∧
    ((∀ e ∈ we, e.key.isSome = true ∧
        (e.channel.isSome = true ∨ e.frequency.getD 0 = 0)) →
      ∃ s2 ms, process_wifi_measure s md we u = .ok (s2, ms) ∧
        ms.length = we.length) ∧
    ((∃ e ∈ ce, e.mcc = none ∨ e.mnc = none) →
      process_cell_measure s md ce u = .error .keyError) ∧
    ((∃ e ∈ we, e.key = none) →
      process_wifi_measure s md we u = .error .keyError) := by
  refine ⟨?_, ?_, ?_, ?_⟩
  · intro h
    obtain ⟨s2, ms, hok, hlen⟩ := processCellLoop_ok_of_keys md u ce s [] h
    refine ⟨{ s2 with cell_measures := s2.cell_measures ++ ms }, ms, ?_,
      by simpa using hlen⟩
    unfold process_cell_measure
    rw [hok]
  · intro h
    obtain ⟨keys, hkeys⟩ := wifiKeysOf_ok we (fun e he => (h e he).1)
    obtain ⟨r, hr, hlen⟩ := processWifiLoop_ok_of_entries md u
      (decode_datetime (md.created.getD ""))
      (s.wifiBlacklist.filter (fun b => decide (b ∈ keys))) we
      ((s.wifis.filter (fun w => decide (w.key ∈ keys))).map
        (fun w => w.key)) s [] h
    refine ⟨{ r.1 with wifi_measures := r.1.wifi_measures ++ r.2.2 }, r.2.2,
      ?_, by simpa using hlen⟩
    unfold process_wifi_measure
    rw [hkeys]
    dsimp only
    rw [hr]
  · intro h
    unfold process_cell_measure
    rw [processCellLoop_err md u ce s [] h]
  · intro h
    unfold process_wifi_measure
    rw [wifiKeysOf_err we h]

/-- C4 witness: a one-entry cell batch and a one-entry wifi batch, each with
their station key present, process fully; a one-entry wifi batch missing
its key errors. -/
theorem spec_c4_witness :
    (∀ e ∈ [entryC8], e.mcc.isSome = true ∧ e.mnc.isSome = true) ∧
    (∃ s2 ms, process_cell_measure emptySession md0 [entryC8] none =
      .ok (s2, ms) ∧ ms.length = 1) ∧
    (∀ e ∈ [wifiBb], e.key.isSome = true ∧
      (e.channel.isSome = true ∨ e.frequency.getD 0 = 0)) ∧
    (∃ s2 ms, process_wifi_measure emptySession md0 [wifiBb] none =
      .ok (s2, ms) ∧ ms.length = 1) ∧
    (∃ e ∈ [wifiNoKey], e.key = none) ∧
    process_wifi_measure emptySession md0 [wifiNoKey] none =
      .error .keyError := by
  refine ⟨by decide, ?_, by decide, ?_, ⟨wifiNoKey, by simp, rfl⟩, ?_⟩
  · exact (spec_c4 emptySession md0 [entryC8] [] none).1 (by decide)
  · exact (spec_c4 emptySession md0 [] [wifiBb] none).2.1 (by decide)
  · exact (spec_c4 emptySession md0 [] [wifiNoKey] none).2.2.2
      ⟨wifiNoKey, by simp, rfl⟩

end Ichnaea
